import Mathlib

/-!
# archpasswd: password checking for ZIP / RAR / 7-Zip archives

A shallow embedding of the Go package `archpasswd` (and of `check/rar.go`).

Go strings are modelled as lists of characters (`Str`).  Everything the code
obtains from outside itself (the file system, the archive libraries, the
content sniffer, Unicode case folding of non-ASCII runes) is a field of the
structure `World`, so that every function of the package becomes a pure
function of a `World` and its arguments.

The functions of `strings`, `regexp` and `path/filepath` that the package
calls are modelled for a Unix build (separator `/`, no volume names).
-/

namespace Archpasswd

/-- A Go string, as the list of its characters. -/
abbrev Str := List Char

/-! ## `strings` -/

/-- Go `strings.HasSuffix`. -/
def HasSuffix (s suffix : Str) : Bool :=
  suffix.reverse.isPrefixOf s.reverse

/-- Go `strings.Contains`: `substr` occurs somewhere in `s`. -/
def Contains : Str → Str → Bool
  | [], substr => substr.isPrefixOf []
  | c :: s, substr => substr.isPrefixOf (c :: s) || Contains s substr

/-- The part of `s` before the first occurrence of `sep` (all of `s` when
`sep` does not occur): Go `strings.Split(s, sep)[0]` for a non-empty `sep`. -/
def splitHead : Str → Str → Str
  | [], _ => []
  | c :: s, sep => if sep.isPrefixOf (c :: s) then [] else c :: splitHead s sep

/-- Go `unicode.ToLower` on one rune: the ASCII letters `A`..`Z` are mapped to
`a`..`z`, other ASCII runes are unchanged, and a rune outside ASCII is mapped by
the Unicode tables, which are the parameter `lowerRune`. -/
def toLowerRune (lowerRune : Char → Char) (c : Char) : Char :=
  if c.toNat < 128 then c.toLower else lowerRune c

/-- Go `strings.ToLower`. -/
def ToLower (lowerRune : Char → Char) (s : Str) : Str :=
  s.map (toLowerRune lowerRune)

/-! ## `regexp`: the patterns of the package

Each pattern ends in `$` and is searched unanchored at the left, so a match
is a property of the end of the string.  `\d` is an ASCII digit. -/

/-- A match of the regular expression `\.7z\.\d{3}$`. -/
def match7zVolume (s : Str) : Bool :=
  match s.reverse with
  | d3 :: d2 :: d1 :: '.' :: 'z' :: '7' :: '.' :: _ => d1.isDigit && d2.isDigit && d3.isDigit
  | _ => false

/-- A match of the regular expression `\.zip\.\d{3}$`. -/
def matchZipVolume (s : Str) : Bool :=
  match s.reverse with
  | d3 :: d2 :: d1 :: '.' :: 'p' :: 'i' :: 'z' :: '.' :: _ =>
      d1.isDigit && d2.isDigit && d3.isDigit
  | _ => false

/-- A match of the regular expression `\.tar\.\d{3}$`. -/
def matchTarVolume (s : Str) : Bool :=
  match s.reverse with
  | d3 :: d2 :: d1 :: '.' :: 'r' :: 'a' :: 't' :: '.' :: _ =>
      d1.isDigit && d2.isDigit && d3.isDigit
  | _ => false

/-- A match of the regular expression `\.z\d{2}$`. -/
def matchZNN (s : Str) : Bool :=
  match s.reverse with
  | d2 :: d1 :: 'z' :: '.' :: _ => d1.isDigit && d2.isDigit
  | _ => false

/-- A match of the regular expression `\.r\d{2}$`. -/
def matchRNN (s : Str) : Bool :=
  match s.reverse with
  | d2 :: d1 :: 'r' :: '.' :: _ => d1.isDigit && d2.isDigit
  | _ => false

/-- A match of the regular expression `\.part\d+\.rar$`: the string ends in
`.rar`, the maximal run of digits before that is not empty, and `.part` stands
right before the run. -/
def matchPartRar (s : Str) : Bool :=
  match s.reverse with
  | 'r' :: 'a' :: 'r' :: '.' :: rest =>
      !(rest.takeWhile Char.isDigit).isEmpty &&
        ['t', 'r', 'a', 'p', '.'].isPrefixOf (rest.dropWhile Char.isDigit)
  | _ => false

/-! ## `path/filepath` (Unix) -/

/-- The path separator test `os.IsPathSeparator`. -/
def isSep (c : Char) : Bool := c == '/'

/-- The elements of a path: the pieces between separators. -/
def splitPath : Str → List Str
  | [] => [[]]
  | c :: s =>
      if isSep c then [] :: splitPath s
      else
        match splitPath s with
        | [] => [[c]]
        | e :: es => (c :: e) :: es

/-- One step of `filepath.Clean`: `out` holds the elements written so far,
the last one first.  An empty element and `.` are dropped; `..` removes the
last element written when there is one that is not itself `..`, is dropped at
the root of a rooted path, and is written otherwise. -/
def cleanStep (rooted : Bool) (out : List Str) (e : Str) : List Str :=
  if e = [] then out
  else if e = ['.'] then out
  else if e = ['.', '.'] then
    match out with
    | [] => if rooted then [] else [e]
    | top :: below => if top = ['.', '.'] then e :: out else below
  else e :: out

/-- Go `filepath.Clean`. -/
def Clean (path : Str) : Str :=
  match path with
  | [] => ['.']
  | c :: _ =>
      let rooted := isSep c
      let out := ((splitPath path).foldl (cleanStep rooted) []).reverse
      let body := List.intercalate ['/'] out
      if rooted then '/' :: body
      else if body = [] then ['.'] else body

/-- Go `filepath.Base`: the last element of the path, trailing separators
removed first; `.` for the empty path and `/` for a path of separators. -/
def Base (path : Str) : Str :=
  if path = [] then ['.']
  else
    let stripped := (path.reverse.dropWhile isSep).reverse
    let last := (stripped.reverse.takeWhile (fun c => !isSep c)).reverse
    if last = [] then ['/'] else last

/-- Go `filepath.Dir`: everything up to the last separator, cleaned. -/
def Dir (path : Str) : Str :=
  Clean (path.reverse.dropWhile (fun c => !isSep c)).reverse

/-- Go `filepath.Join`: the elements from the first non-empty one on, put
together with separators and cleaned; the empty string when all are empty. -/
def Join (elem : List Str) : Str :=
  match elem.dropWhile (fun e => e.isEmpty) with
  | [] => []
  | es => Clean (List.intercalate ['/'] es)

/-- Go `filepath.Ext`: the suffix of the last element that starts at its last
dot, empty when that element has no dot. -/
def Ext (path : Str) : Str :=
  let last := (path.reverse.takeWhile (fun c => !isSep c)).reverse
  if last.contains '.' then
    '.' :: (last.reverse.takeWhile (fun c => c != '.')).reverse
  else []

/-! ## Cleaned paths -/

/-- A path begins at the root. -/
def isRooted (p : Str) : Bool :=
  match p with
  | [] => false
  | c :: _ => isSep c

/-- The elements that `filepath.Clean` keeps for a path, the last one first. -/
def cleanElems (p : Str) : List Str :=
  (splitPath p).foldl (cleanStep (isRooted p)) []

/-- The way `filepath.Clean` writes out the elements it keeps. -/
def render (rooted : Bool) (es : List Str) : Str :=
  if rooted then '/' :: List.intercalate ['/'] es
  else if List.intercalate ['/'] es = [] then ['.'] else List.intercalate ['/'] es

/-- No separator occurs in a string. -/
def SepFree (e : Str) : Prop := ∀ c ∈ e, isSep c = false

/-- A file name: not empty, without separator, and neither `.` nor `..`. -/
def IsName (e : Str) : Prop := e ≠ [] ∧ SepFree e ∧ e ≠ ['.'] ∧ e ≠ ['.', '.']

/-- The elements of a cleaned path, the last one first: each is `..` or a
name, and `..` stands only at the start of a path that is not rooted. -/
def CleanStack (rooted : Bool) : List Str → Prop
  | [] => True
  | e :: below =>
      (IsName e ∨ (e = ['.', '.'] ∧ rooted = false ∧ ∀ x ∈ below, x = ['.', '.'])) ∧
        CleanStack rooted below

/-- What `filepath.Clean` writes before the last element: nothing or the root
when no element comes before, else the elements before and a separator. -/
def renderDir (rooted : Bool) (es : List Str) : Str :=
  if es = [] then (if rooted then ['/'] else [])
  else render rooted es ++ ['/']

/-! ## The outside world -/

/-- The package's error values.  `wrapOpenFileFailed cause` is the value of
`fmt.Errorf("%w: %v", ErrOpenFileFailed, err)` for an `err` with message `cause`;
`sevenZipSuffix` is the error the 7-Zip checker makes for a file name with
another ending than `.7z` or `.001`. -/
inductive Err where
  | ErrInvalidArgument
  | ErrFileNotEncrypted
  | ErrUnsupportedFormat
  | ErrOpenFileFailed
  | wrapOpenFileFailed (cause : Str)
  | sevenZipSuffix
  deriving DecidableEq, Repr

/-- The three results of `CheckPassword`: matched, password, error. -/
abbrev CheckResult := Bool × Str × Option Err

/-- What reading an opened file gives: a read error, or the file's bytes. -/
inductive OpenedFile where
  | readError (msg : Str)
  | bytes (content : List Nat)

/-- What happens to one entry of a ZIP archive after `SetPassword`: `Open`
fails, or `Open` succeeds and `io.ReadAll` fails, or both succeed. -/
inductive ZipAttempt where
  | openError (msg : Str)
  | readError (msg : Str)
  | readOk

/-- An entry of a ZIP archive (`zip.File`). -/
structure ZipFile where
  IsEncrypted : Bool
  attempt : Str → ZipAttempt

/-- What `Open` on an entry of a 7-Zip archive gives: an error, or a stream
from which `io.ReadFull` of one byte succeeds or not. -/
inductive SevenZipOpen where
  | openError
  | opened (readFullOk : Bool)
  deriving DecidableEq, Repr

/-- An entry of a 7-Zip archive (`sevenzip.File`). -/
structure SevenZipFile where
  IsDir : Bool
  UncompressedSize : Nat
  Open : SevenZipOpen
  deriving DecidableEq, Repr

/-- What `Next` of a RAR reader gives: a header (nil or not), `io.EOF`, or
another error. -/
inductive RarNext where
  | header (nonNil : Bool)
  | eof
  | error (msg : Str)

/-- The error of reading the content of a RAR entry: nil, `io.EOF`, or another
error. -/
inductive RarRead where
  | ok
  | eof
  | error (msg : Str)

/-- A RAR reader (`rardecode.ReadCloser`) as the package uses it: the result
of the first `Next`, of one `Read` into 1024 bytes after it, and of
`io.CopyN` of 1024 bytes after it. -/
structure RarReader where
  Next : RarNext
  Read : RarRead
  CopyN : RarRead

/-- Everything the package obtains from outside:
* `lowerRune`: `unicode.ToLower` on the runes outside ASCII;
* `Stat p`: `os.Stat(p)` gives no error;
* `Open p`: `os.Open(p)`, an error message or the opened file;
* `filetypeMatch header`: the MIME value of the kind that `filetype.Match`
  finds, `none` when it gives an error or the unknown kind;
* `zipOpenReader p`: `zip.OpenReader(p)`, an error message or the entries;
* `sevenzipOpenReaderWithPassword p pw`: `none` for an error, else the entries;
* `rardecodeOpenReader p pw`: `rardecode.OpenReader(p, rardecode.Password(pw))`. -/
structure World where
  lowerRune : Char → Char
  Stat : Str → Bool
  Open : Str → Except Str OpenedFile
  filetypeMatch : List Nat → Option Str
  zipOpenReader : Str → Except Str (List ZipFile)
  sevenzipOpenReaderWithPassword : Str → Str → Option (List SevenZipFile)
  rardecodeOpenReader : Str → Str → Except Str RarReader

/-! ## checker.go -/

/-- The type `Format` and the result type of `getFileType`: a Go `int`. -/
abbrev Format := Int

def FORMAT_UNKNOWN : Format := -1
def FORMAT_AUTO : Format := 0

def ZIP : Format := 0
def RAR : Format := 1
def SEVENZIP : Format := 2

def TYPE_ZIP : Format := 0
def TYPE_RAR : Format := 1
def TYPE_7Z : Format := 2
def TYPE_ZIP_PART : Format := 3
def TYPE_RAR_PART : Format := 4
def TYPE_7Z_PART : Format := 5
def TYPE_GZ : Format := 6
def TYPE_BZ2 : Format := 7
def TYPE_TAR : Format := 8
def TYPE_TAR_PART : Format := 9
def TYPE_XZ : Format := 10
def TYPE_CAB : Format := 11
def TYPE_ISO : Format := 12
def TYPE_ARJ : Format := 13
def TYPE_LZH : Format := 14
def TYPE_WIM : Format := 15

/-- The switch of `getFileType` on the MIME value of the sniffed kind;
`none` when no case applies. -/
def typeOfMIME (mime : Str) : Option Format :=
  if mime = "application/zip".toList then some TYPE_ZIP
  else if mime = "application/x-rar-compressed".toList then some TYPE_RAR
  else if mime = "application/x-7z-compressed".toList then some TYPE_7Z
  else if mime = "application/gzip".toList then some TYPE_GZ
  else if mime = "application/x-bzip2".toList then some TYPE_BZ2
  else if mime = "application/x-tar".toList then some TYPE_TAR
  else if mime = "application/x-xz".toList then some TYPE_XZ
  else if mime = "application/vnd.ms-cab-compressed".toList then some TYPE_CAB
  else if mime = "application/x-iso9660-image".toList then some TYPE_ISO
  else none

/-- The switch of `getFileType` on the lower-cased extension; `none` when no
case applies. -/
def typeOfExt (ext : Str) : Option Format :=
  if ext = ".zip".toList then some TYPE_ZIP
  else if ext = ".rar".toList then some TYPE_RAR
  else if ext = ".7z".toList then some TYPE_7Z
  else if ext = ".gz".toList ∨ ext = ".tgz".toList then some TYPE_GZ
  else if ext = ".bz2".toList ∨ ext = ".tbz2".toList then some TYPE_BZ2
  else if ext = ".tar".toList then some TYPE_TAR
  else if ext = ".xz".toList ∨ ext = ".txz".toList then some TYPE_XZ
  else if ext = ".cab".toList then some TYPE_CAB
  else if ext = ".iso".toList then some TYPE_ISO
  else if ext = ".arj".toList then some TYPE_ARJ
  else if ext = ".lzh".toList ∨ ext = ".lha".toList then some TYPE_LZH
  else if ext = ".wim".toList ∨ ext = ".swm".toList then some TYPE_WIM
  else none

/-- Stage 1 of `getFileType`: the split-volume checks on the lower-cased base
name; `none` when the function goes on to open the file. -/
def getFileTypeByName (baseName : Str) : Option Format :=
  if match7zVolume baseName then some TYPE_7Z_PART
  else if Contains baseName ".zip.".toList || HasSuffix baseName ".z01".toList then
    some TYPE_ZIP_PART
  else if (Contains baseName ".part".toList && HasSuffix baseName ".rar".toList) ||
      HasSuffix baseName ".r01".toList then
    some TYPE_RAR_PART
  else if matchTarVolume baseName then some TYPE_TAR_PART
  else none

/-- Stages 3 and 4 of `getFileType`: the extension, then the compound
endings, then -1. -/
def getFileTypeByExt (w : World) (path baseName : Str) : Format :=
  match typeOfExt (ToLower w.lowerRune (Ext path)) with
  | some t => t
  | none =>
      if HasSuffix baseName ".tar.gz".toList then TYPE_GZ
      else if HasSuffix baseName ".tar.bz2".toList then TYPE_BZ2
      else if HasSuffix baseName ".tar.xz".toList then TYPE_XZ
      else -1

/-- The function `getFileType`. -/
def getFileType (w : World) (path : Str) : Format :=
  let baseName := ToLower w.lowerRune (Base path)
  match getFileTypeByName baseName with
  | some t => t
  | none =>
      match w.Open path with
      | .error _ => -1
      | .ok (.readError _) => -1
      | .ok (.bytes content) =>
          let header := content.take 8192
          match (w.filetypeMatch header).bind typeOfMIME with
          | some t => t
          | none => getFileTypeByExt w path baseName

/-- The function `findFirstVolume`. -/
def findFirstVolume (w : World) (archivePath : Str) : Str × Option Err :=
  let baseName := Base archivePath
  let baseDir := Dir archivePath
  if match7zVolume baseName then
    let baseFile := baseName.take (baseName.length - 7)
    (Join [baseDir, baseFile ++ ".7z.001".toList], none)
  else
    let zip1 : Option Str :=
      if matchZipVolume baseName then
        let baseFile := baseName.take (baseName.length - 8)
        let firstPart := Join [baseDir, baseFile ++ ".zip.001".toList]
        if w.Stat firstPart then some firstPart else none
      else none
    match zip1 with
    | some firstPart => (firstPart, none)
    | none =>
    let zip2 : Option Str :=
      if matchZNN baseName then
        let baseFile := baseName.take (baseName.length - 4)
        let firstPart := Join [baseDir, baseFile ++ ".zip".toList]
        if w.Stat firstPart then some firstPart else none
      else none
    match zip2 with
    | some firstPart => (firstPart, none)
    | none =>
    if matchPartRar baseName then
      let baseFile := splitHead baseName ".part".toList
      (Join [baseDir, baseFile ++ ".part1.rar".toList], none)
    else if matchRNN baseName then
      let baseFile := baseName.take (baseName.length - 4)
      (Join [baseDir, baseFile ++ ".rar".toList], none)
    else if HasSuffix baseName ".zip".toList &&
        w.Stat (Join [baseDir, baseName.take (baseName.length - 4) ++ ".z01".toList]) then
      (archivePath, none)
    else (archivePath, none)

/-- The strategies: each holds the path it is bound to, its field `FilePath`. -/
inductive Checker where
  | zipChecker (FilePath : Str)
  | rarChecker (FilePath : Str)
  | sevenZipChecker (FilePath : Str)
  deriving DecidableEq, Repr

/-- The function `NewChecker`; `format` is the variadic argument. -/
def NewChecker (w : World) (filePath : Str) (format : List Format) :
    Option Checker × Option Err :=
  if filePath = [] then (none, some Err.ErrInvalidArgument)
  else
    let actualFormat := match format with
      | [] => FORMAT_AUTO
      | f :: _ => f
    match findFirstVolume w filePath with
    | (_, some err) => (none, some err)
    | (firstVolume, none) =>
        let filePath := firstVolume
        let actualFormat :=
          if actualFormat = FORMAT_AUTO then getFileType w filePath else actualFormat
        if actualFormat = TYPE_ZIP ∨ actualFormat = TYPE_ZIP_PART then
          (some (Checker.zipChecker filePath), none)
        else if actualFormat = TYPE_RAR ∨ actualFormat = TYPE_RAR_PART then
          (some (Checker.rarChecker filePath), none)
        else if actualFormat = TYPE_7Z ∨ actualFormat = TYPE_7Z_PART then
          (some (Checker.sevenZipChecker filePath), none)
        else (none, some Err.ErrUnsupportedFormat)

/-- The first value of the variable `actualFormat` of `NewChecker`: the first
format given, `FORMAT_AUTO` when none is given. -/
def requestedTag (format : List Format) : Format :=
  match format with
  | [] => FORMAT_AUTO
  | f :: _ => f

/-- The value of the variable `actualFormat` when `NewChecker` reaches its
switch: the first value, replaced by the result of `getFileType` on the first
volume when it equals `FORMAT_AUTO`. -/
def actualFormat (w : World) (filePath : Str) (format : List Format) : Format :=
  if requestedTag format = FORMAT_AUTO then getFileType w (findFirstVolume w filePath).1
  else requestedTag format

/-! ## zip.go -/

/-- The body of the loop of `zipChecker.CheckPassword` for one encrypted
entry: `some r` when the body returns `r`, `none` when it would go on to the
next entry. -/
def zipTryEntry (f : ZipFile) (password : Str) : Option CheckResult :=
  match f.attempt password with
  | .openError msg =>
      if Contains msg "password".toList then some (false, password, none)
      else if Contains msg "not a valid zip file".toList then
        some (false, password, some Err.ErrUnsupportedFormat)
      else some (false, password, some (Err.wrapOpenFileFailed msg))
  | .readError msg =>
      if Contains msg "password".toList || Contains msg "checksum error".toList then
        some (false, password, none)
      else some (false, password, some (Err.wrapOpenFileFailed msg))
  | .readOk => some (true, password, none)

/-- The loop of `zipChecker.CheckPassword` over the encrypted entries, with
the return that follows it. -/
def zipLoop : List ZipFile → Str → CheckResult
  | [], password => (false, password, none)
  | f :: rest, password =>
      match zipTryEntry f password with
      | some r => r
      | none => zipLoop rest password

/-- The method `zipChecker.CheckPassword`; `FilePath` is the field of the
receiver. -/
def zipCheckPassword (w : World) (FilePath : Str) (filePath password : Str) : CheckResult :=
  let _ := filePath
  match w.zipOpenReader FilePath with
  | .error msg => (false, password, some (Err.wrapOpenFileFailed msg))
  | .ok files =>
      let encryptedFiles := files.filter (fun f => f.IsEncrypted)
      let hasEncrypted := files.any (fun f => f.IsEncrypted)
      if !hasEncrypted then (true, [], none)
      else zipLoop encryptedFiles password

/-! ## sevenzip.go -/

/-- The first loop of `testFirstFile`: the first entry that is no directory
and has a size between 1 and `maxSize` = 512. -/
def sevenZipFirstSmall (files : List SevenZipFile) : Option SevenZipFile :=
  files.find? (fun f => !f.IsDir && decide (f.UncompressedSize > 0) &&
    decide (f.UncompressedSize ≤ 512))

/-- The second loop of `testFirstFile`: the first entry that is no directory
and is not empty. -/
def sevenZipFirstNonEmpty (files : List SevenZipFile) : Option SevenZipFile :=
  files.find? (fun f => !f.IsDir && decide (f.UncompressedSize > 0))

/-- The entry `selectedFile` of `testFirstFile` after both loops. -/
def sevenZipSelected (files : List SevenZipFile) : Option SevenZipFile :=
  match sevenZipFirstSmall files with
  | some f => some f
  | none => sevenZipFirstNonEmpty files

/-- The method `sevenZipChecker.testFirstFile`. -/
def testFirstFile (r : List SevenZipFile) (password : Str) : CheckResult :=
  match sevenZipSelected r with
  | some selectedFile =>
      match selectedFile.Open with
      | .openError => (false, password, none)
      | .opened readFullOk =>
          if !readFullOk then (false, password, none)
          else (true, password, none)
  | none => (true, password, none)

/-- The second half of `sevenZipChecker.CheckPassword`, after the attempt
with the empty password. -/
def sevenZipWithPassword (w : World) (FilePath password : Str) : CheckResult :=
  if password ≠ [] then
    match w.sevenzipOpenReaderWithPassword FilePath password with
    | none => (false, password, none)
    | some r => testFirstFile r password
  else (false, password, none)

/-- The method `sevenZipChecker.CheckPassword`; `FilePath` is the field of
the receiver. -/
def sevenZipCheckPassword (w : World) (FilePath : Str) (filePath password : Str) :
    CheckResult :=
  if !HasSuffix (ToLower w.lowerRune filePath) ".7z".toList &&
      !HasSuffix (ToLower w.lowerRune filePath) ".001".toList then
    (false, [], some Err.sevenZipSuffix)
  else
    match w.sevenzipOpenReaderWithPassword FilePath [] with
    | some r =>
        match testFirstFile r [] with
        | (_, _, some err) => (false, [], some err)
        | (true, _, none) => (true, [], none)
        | (false, _, none) => sevenZipWithPassword w FilePath password
    | none => sevenZipWithPassword w FilePath password

/-! ## check/rar.go -/

/-- The test for the two messages of a wrong password. -/
def isBadPassword (msg : Str) : Bool :=
  msg == "rardecode: bad password".toList || msg == "rardecode: incorrect password".toList

/-- The method `rarChecker.checkRar4Password`. -/
def checkRar4Password (w : World) (filePath password : Str) : CheckResult :=
  match w.rardecodeOpenReader filePath password with
  | .error msg =>
      if msg == "rardecode: encrypted archive".toList ||
          msg == "rardecode: archive encrypted, password needed".toList then
        (false, password, none)
      else if isBadPassword msg then (false, password, none)
      else (false, password, some (Err.wrapOpenFileFailed msg))
  | .ok rr =>
      match rr.Next with
      | .eof => (true, password, none)
      | .error _ => (false, password, none)
      | .header _ =>
          match rr.CopyN with
          | .error _ => (false, password, none)
          | _ => (true, password, none)

/-- The second half of the RAR5 branch of `rarChecker.CheckPassword`: the
attempt with the given password. -/
def rar5WithPassword (w : World) (filePath password : Str) : CheckResult :=
  match w.rardecodeOpenReader filePath password with
  | .error msg =>
      if isBadPassword msg then (false, password, none)
      else (false, password, some (Err.wrapOpenFileFailed msg))
  | .ok rr =>
      match rr.Next with
      | .eof => (true, password, none)
      | .error msg =>
          if isBadPassword msg then (false, password, none)
          else (false, password, some (Err.wrapOpenFileFailed msg))
      | .header nonNil =>
          if nonNil then
            match rr.Read with
            | .error msg => (false, password, some (Err.wrapOpenFileFailed msg))
            | _ => (true, password, none)
          else (true, password, none)

/-- The first seven bytes of a file, as `os.Open` and `io.ReadFull` into a
buffer of seven bytes give them, or the message of the error. -/
def readRarHeader (w : World) (filePath : Str) : Except Str (List Nat) :=
  match w.Open filePath with
  | .error msg => .error msg
  | .ok (.readError msg) => .error msg
  | .ok (.bytes content) =>
      if content.length = 0 then .error "EOF".toList
      else if content.length < 7 then .error "unexpected EOF".toList
      else .ok (content.take 7)

/-- The signature of RAR4, the bytes of `"Rar!\x1a\x07\x00"`. -/
def rar4Signature : List Nat := [0x52, 0x61, 0x72, 0x21, 0x1a, 0x07, 0x00]

/-- The method `rarChecker.CheckPassword` of `check/rar.go`; `FilePath` is
the field of the receiver. -/
def rarCheckPassword (w : World) (FilePath : Str) (filePath password : Str) : CheckResult :=
  let _ := FilePath
  match readRarHeader w filePath with
  | .error msg => (false, password, some (Err.wrapOpenFileFailed msg))
  | .ok headerBytes =>
      let isRar4 := headerBytes = rar4Signature
      if isRar4 then checkRar4Password w filePath password
      else
        match w.rardecodeOpenReader filePath [] with
        | .ok rr =>
            match rr.Next with
            | .header _ => (true, [], none)
            | .eof => (true, [], none)
            | .error _ => rar5WithPassword w filePath password
        | .error _ => rar5WithPassword w filePath password

/-- The method `CheckPassword` of a checker. -/
def Checker.CheckPassword (w : World) (c : Checker) (filePath password : Str) : CheckResult :=
  match c with
  | .zipChecker FilePath => zipCheckPassword w FilePath filePath password
  | .rarChecker FilePath => rarCheckPassword w FilePath filePath password
  | .sevenZipChecker FilePath => sevenZipCheckPassword w FilePath filePath password

/-! ## Concrete worlds -/

/-- A world in which no file exists and every library call fails. -/
def emptyWorld : World where
  lowerRune := fun c => c
  Stat := fun _ => false
  Open := fun _ => .error "no such file or directory".toList
  filetypeMatch := fun _ => none
  zipOpenReader := fun _ => .error "no such file or directory".toList
  sevenzipOpenReaderWithPassword := fun _ _ => none
  rardecodeOpenReader := fun _ _ => .error "no such file or directory".toList

/-- A world in which `os.Stat` succeeds on every path, and nothing else does. -/
def statWorld : World :=
  { emptyWorld with Stat := fun _ => true }

/-- A world with one archive, `x.7z.001`, a 7-Zip archive without password
that holds one file of ten bytes. -/
def plain7zWorld : World :=
  { emptyWorld with
    Stat := fun p => p == "x.7z.001".toList
    sevenzipOpenReaderWithPassword := fun p _ =>
      if p = "x.7z.001".toList then
        some [{ IsDir := false, UncompressedSize := 10, Open := .opened true }]
      else none }

/-- A world with one archive, `a.zip`, a ZIP archive with two entries, none of
them encrypted. -/
def plainZipWorld : World :=
  { emptyWorld with
    Stat := fun p => p == "a.zip".toList
    zipOpenReader := fun p =>
      if p = "a.zip".toList then
        .ok [{ IsEncrypted := false, attempt := fun _ => .readOk },
             { IsEncrypted := false, attempt := fun _ => .readOk }]
      else .error "no such file or directory".toList }

/-- A world with one archive, `a.rar`, a RAR5 archive without password. -/
def plainRarWorld : World :=
  { emptyWorld with
    Stat := fun p => p == "a.rar".toList
    Open := fun p =>
      if p = "a.rar".toList then
        .ok (.bytes [0x52, 0x61, 0x72, 0x21, 0x1a, 0x07, 0x01, 0x00, 0x33, 0x92])
      else .error "no such file or directory".toList
    filetypeMatch := fun header =>
      if [0x52, 0x61, 0x72, 0x21, 0x1a, 0x07].isPrefixOf header then
        some "application/x-rar-compressed".toList
      else none
    rardecodeOpenReader := fun p _ =>
      if p = "a.rar".toList then .ok { Next := .header true, Read := .ok, CopyN := .eof }
      else .error "no such file or directory".toList }

/-- A world with one file, `bad.zip`, that is no ZIP archive: `zip.OpenReader`
fails on it with the message of `zip.ErrFormat`. -/
def notZipWorld : World :=
  { emptyWorld with
    Stat := fun p => p == "bad.zip".toList
    zipOpenReader := fun p =>
      if p = "bad.zip".toList then .error "zip: not a valid zip file".toList
      else .error "no such file or directory".toList }

/-- An encrypted entry of a ZIP archive whose `Open` fails with the message
`zip: checksum error`, whatever the password. -/
def checksumOnOpenEntry : ZipFile :=
  { IsEncrypted := true, attempt := fun _ => .openError "zip: checksum error".toList }

/-- An encrypted entry of a ZIP archive with the password `666`: with another
password reading it fails with the message `zip: checksum error`. -/
def entry666 : ZipFile :=
  { IsEncrypted := true
    attempt := fun pw => if pw = "666".toList then .readOk
      else .readError "zip: checksum error".toList }

/-- A world with the archives `c.zip`, whose one entry is `checksumOnOpenEntry`,
and `e.zip`, which holds a plain entry, then `entry666`, then
`checksumOnOpenEntry`. -/
def encryptedZipWorld : World :=
  { emptyWorld with
    Stat := fun p => p == "c.zip".toList || p == "e.zip".toList
    zipOpenReader := fun p =>
      if p = "c.zip".toList then .ok [checksumOnOpenEntry]
      else if p = "e.zip".toList then
        .ok [{ IsEncrypted := false, attempt := fun _ => .readOk }, entry666, checksumOnOpenEntry]
      else .error "no such file or directory".toList }

/-- A world with one archive, `old.rar`, a RAR4 archive without password: it
opens with every password. -/
def plainRar4World : World :=
  { emptyWorld with
    Stat := fun p => p == "old.rar".toList
    Open := fun p =>
      if p = "old.rar".toList then
        .ok (.bytes [0x52, 0x61, 0x72, 0x21, 0x1a, 0x07, 0x00, 0xcf, 0x90, 0x73])
      else .error "no such file or directory".toList
    rardecodeOpenReader := fun p _ =>
      if p = "old.rar".toList then .ok { Next := .header true, Read := .ok, CopyN := .eof }
      else .error "no such file or directory".toList }

/-- The entries of a 7-Zip archive in which a file of 500 bytes, which cannot
be opened, stands before a file of 10 bytes, which can. -/
def largerFirstEntries : List SevenZipFile :=
  [{ IsDir := false, UncompressedSize := 500, Open := .openError },
   { IsDir := false, UncompressedSize := 10, Open := .opened true }]

/-! ## The words of the specification -/

/-- The effective tag in the words of the specification: the explicit tag
when the caller names one, and the tag detected on the first volume when the
caller names none.  A caller that names `ZIP` names the number 0, which this
definition takes as the explicit tag Zip. -/
def specEffectiveTag (w : World) (filePath : Str) (format : List Format) : Format :=
  match format with
  | [] => getFileType w (findFirstVolume w filePath).1
  | t :: _ => t

/-- The tags that have a strategy. -/
def supportedTag (t : Format) : Prop :=
  t = TYPE_ZIP ∨ t = TYPE_ZIP_PART ∨ t = TYPE_RAR ∨ t = TYPE_RAR_PART ∨
    t = TYPE_7Z ∨ t = TYPE_7Z_PART

instance (t : Format) : Decidable (supportedTag t) := by
  unfold supportedTag; infer_instance

/-- The verification probe of the 7-Zip checker succeeds on the entries of an
opened archive: there is no entry to select, or the selected entry opens and
one byte can be read from it. -/
def sevenZipProbeOk (r : List SevenZipFile) : Bool :=
  match sevenZipSelected r with
  | none => true
  | some f => f.Open == .opened true

/-- The file-name stage of detection as the specification words it: the
patterns `*.7z.NNN`, then `*.zip.NNN` or `*.z01`, then `*.partN.rar` or `*.r01`,
then `*.tar.NNN`, on the lower-cased base name, and no others. -/
def specVolumeTagOfName (baseName : Str) : Option Format :=
  if match7zVolume baseName then some TYPE_7Z_PART
  else if matchZipVolume baseName || HasSuffix baseName ".z01".toList then some TYPE_ZIP_PART
  else if matchPartRar baseName || HasSuffix baseName ".r01".toList then some TYPE_RAR_PART
  else if matchTarVolume baseName then some TYPE_TAR_PART
  else none

/-- A RAR reader of an archive without password: the first entry is listed
and its content ends before 1024 bytes. -/
def plainRarReader : RarReader :=
  { Next := .header true, Read := .ok, CopyN := .eof }

/-- An entry of a 7-Zip archive that is small: no directory, not empty, and
not larger than 512 bytes. -/
def isSmallFile (f : SevenZipFile) : Prop :=
  f.IsDir = false ∧ 0 < f.UncompressedSize ∧ f.UncompressedSize ≤ 512

/-- An entry of a 7-Zip archive that is no directory and is not empty. -/
def isNonEmptyFile (f : SevenZipFile) : Prop :=
  f.IsDir = false ∧ 0 < f.UncompressedSize

/-- What a result of `CheckPassword` for the candidate `password` has to
satisfy: matched = true comes with a nil error and with the empty or the
candidate password, and an error that is not nil comes with matched = false. -/
def matchedInvariant (password : Str) (r : CheckResult) : Prop :=
  (r.1 = true → r.2.2 = none ∧ (r.2.1 = [] ∨ r.2.1 = password)) ∧
    (r.2.2 ≠ none → r.1 = false)

/-- The base name of a path ends in `.rNN` and, with `.rar` in place of that
ending, ends in `.partN.rar`: the form `X.partN.rNN`. -/
def isPartRNN (path : Str) : Bool :=
  matchRNN (Base path) &&
    matchPartRar ((Base path).take ((Base path).length - 4) ++ ".rar".toList)

/-- A world with one file, `notes.txt`, that opens and holds the bytes of
`hello`; the sniffer finds no kind in it. -/
def textFileWorld : World :=
  { emptyWorld with
    Stat := fun p => p == "notes.txt".toList
    Open := fun p =>
      if p = "notes.txt".toList then .ok (.bytes [0x68, 0x65, 0x6c, 0x6c, 0x6f])
      else .error "no such file or directory".toList }

/-- The smallest entry of a list, the first one among those of equal size. -/
def smallestEntry : List SevenZipFile → Option SevenZipFile
  | [] => none
  | f :: rest =>
      match smallestEntry rest with
      | none => some f
      | some g => if f.UncompressedSize ≤ g.UncompressedSize then some f else some g

/-- The verification entry in the words of the specification: the smallest
entry among those that are no directory and have a size between 1 and 512;
when there is none, the first entry that is no directory and is not empty. -/
def specSelected (files : List SevenZipFile) : Option SevenZipFile :=
  match smallestEntry (files.filter (fun f => !f.IsDir && decide (f.UncompressedSize > 0) &&
      decide (f.UncompressedSize ≤ 512))) with
  | some f => some f
  | none => sevenZipFirstNonEmpty files

/-- A fact of the ZIP library about one entry: the checksum of an entry is
compared when its content has been read, so `Open` of the entry fails with no
message of a checksum error. -/
def openReportsNoChecksum (f : ZipFile) : Prop :=
  ∀ pw msg, f.attempt pw = .openError msg → Contains msg "checksum error".toList = false

/-! ## The patterns, as statements about the end of a string -/

theorem match7zVolume_append (stem : Str) (d1 d2 d3 : Char) :
    match7zVolume (stem ++ ['.', '7', 'z', '.', d1, d2, d3]) =
      (d1.isDigit && d2.isDigit && d3.isDigit) := by
  simp [match7zVolume]

theorem match7zVolume_iff (s : Str) :
    match7zVolume s = true ↔
      ∃ stem d1 d2 d3, s = stem ++ ['.', '7', 'z', '.', d1, d2, d3] ∧
        d1.isDigit = true ∧ d2.isDigit = true ∧ d3.isDigit = true := by
  constructor
  · intro h
    unfold match7zVolume at h
    split at h
    · rename_i d3 d2 d1 rest hr
      refine ⟨rest.reverse, d1, d2, d3, ?_, ?_⟩
      · have := congrArg List.reverse hr
        simpa using this
      · simpa [and_assoc] using h
    · simp at h
  · rintro ⟨stem, d1, d2, d3, rfl, h1, h2, h3⟩
    simp [match7zVolume_append, h1, h2, h3]

theorem matchZipVolume_iff (s : Str) :
    matchZipVolume s = true ↔
      ∃ stem d1 d2 d3, s = stem ++ ['.', 'z', 'i', 'p', '.', d1, d2, d3] ∧
        d1.isDigit = true ∧ d2.isDigit = true ∧ d3.isDigit = true := by
  constructor
  · intro h
    unfold matchZipVolume at h
    split at h
    · rename_i d3 d2 d1 rest hr
      refine ⟨rest.reverse, d1, d2, d3, ?_, ?_⟩
      · have := congrArg List.reverse hr
        simpa using this
      · simpa [and_assoc] using h
    · simp at h
  · rintro ⟨stem, d1, d2, d3, rfl, h1, h2, h3⟩
    simp [matchZipVolume, h1, h2, h3]

theorem matchZNN_append (stem : Str) (d1 d2 : Char) :
    matchZNN (stem ++ ['.', 'z', d1, d2]) = (d1.isDigit && d2.isDigit) := by
  simp [matchZNN]

theorem matchZNN_iff (s : Str) :
    matchZNN s = true ↔
      ∃ stem d1 d2, s = stem ++ ['.', 'z', d1, d2] ∧
        d1.isDigit = true ∧ d2.isDigit = true := by
  constructor
  · intro h
    unfold matchZNN at h
    split at h
    · rename_i d2 d1 rest hr
      refine ⟨rest.reverse, d1, d2, ?_, ?_⟩
      · have := congrArg List.reverse hr
        simpa using this
      · simpa using h
    · simp at h
  · rintro ⟨stem, d1, d2, rfl, h1, h2⟩
    simp [matchZNN_append, h1, h2]

theorem matchRNN_iff (s : Str) :
    matchRNN s = true ↔
      ∃ stem d1 d2, s = stem ++ ['.', 'r', d1, d2] ∧
        d1.isDigit = true ∧ d2.isDigit = true := by
  constructor
  · intro h
    unfold matchRNN at h
    split at h
    · rename_i d2 d1 rest hr
      refine ⟨rest.reverse, d1, d2, ?_, ?_⟩
      · have := congrArg List.reverse hr
        simpa using this
      · simpa using h
    · simp at h
  · rintro ⟨stem, d1, d2, rfl, h1, h2⟩
    simp [matchRNN, h1, h2]

/-- A name that ends in `.zNN` is no match of the 7-Zip volume pattern. -/
theorem match7zVolume_zNN (stem : Str) (d1 d2 : Char) :
    match7zVolume (stem ++ ['.', 'z', d1, d2]) = false := by
  cases h : match7zVolume (stem ++ ['.', 'z', d1, d2]) with
  | false => rfl
  | true =>
    obtain ⟨st, a, b, c, he, ha, hb, hc⟩ := (match7zVolume_iff _).1 h
    have := congrArg List.reverse he
    simp at this
    obtain ⟨-, -, rfl, -⟩ := this
    simp at ha

/-- A name that ends in `.zNN` is no match of the `.zip.NNN` pattern. -/
theorem matchZipVolume_zNN (stem : Str) (d1 d2 : Char) :
    matchZipVolume (stem ++ ['.', 'z', d1, d2]) = false := by
  cases h : matchZipVolume (stem ++ ['.', 'z', d1, d2]) with
  | false => rfl
  | true =>
    obtain ⟨st, a, b, c, he, ha, hb, hc⟩ := (matchZipVolume_iff _).1 h
    have := congrArg List.reverse he
    simp at this
    obtain ⟨-, -, rfl, -⟩ := this
    simp at ha

/-- A name that ends in a digit is no match of the `.partN.rar` pattern. -/
theorem matchPartRar_digit (stem : Str) (d : Char) (hd : d.isDigit = true) :
    matchPartRar (stem ++ [d]) = false := by
  unfold matchPartRar
  split
  · rename_i rest hr
    simp at hr
    obtain ⟨rfl, -⟩ := hr
    simp at hd
  · rfl

/-- A name that ends in `.zNN` is no match of the `.rNN` pattern. -/
theorem matchRNN_zNN (stem : Str) (d1 d2 : Char) :
    matchRNN (stem ++ ['.', 'z', d1, d2]) = false := by
  simp [matchRNN]

theorem match7zVolume_not_digit (s : Str) (c : Char) (hc : c.isDigit = false) :
    match7zVolume (s ++ [c]) = false := by
  unfold match7zVolume
  split
  · rename_i d3 d2 d1 rest hr
    simp at hr
    obtain ⟨rfl, -⟩ := hr
    simp [hc]
  · rfl

theorem matchZipVolume_not_digit (s : Str) (c : Char) (hc : c.isDigit = false) :
    matchZipVolume (s ++ [c]) = false := by
  unfold matchZipVolume
  split
  · rename_i d3 d2 d1 rest hr
    simp at hr
    obtain ⟨rfl, -⟩ := hr
    simp [hc]
  · rfl

theorem matchZNN_not_digit (s : Str) (c : Char) (hc : c.isDigit = false) :
    matchZNN (s ++ [c]) = false := by
  unfold matchZNN
  split
  · rename_i d2 d1 rest hr
    simp at hr
    obtain ⟨rfl, -⟩ := hr
    simp [hc]
  · rfl

theorem matchPartRar_append (name ds : Str) (hds : ds ≠ [])
    (hdig : ∀ c ∈ ds, c.isDigit = true) :
    matchPartRar (name ++ ".part".toList ++ ds ++ ".rar".toList) = true := by
  have hrev : (name ++ ".part".toList ++ ds ++ ".rar".toList).reverse =
      'r' :: 'a' :: 'r' :: '.' :: (ds.reverse ++ 't' :: 'r' :: 'a' :: 'p' :: '.' :: name.reverse) := by
    simp
  have hd : ∀ c ∈ ds.reverse, c.isDigit = true := fun c hc => hdig c (by simpa using hc)
  have ht : (ds.reverse ++ 't' :: 'r' :: 'a' :: 'p' :: '.' :: name.reverse).takeWhile Char.isDigit =
      ds.reverse := by
    rw [List.takeWhile_append_of_pos hd]
    simp [List.takeWhile]
  have hdr : (ds.reverse ++ 't' :: 'r' :: 'a' :: 'p' :: '.' :: name.reverse).dropWhile Char.isDigit =
      't' :: 'r' :: 'a' :: 'p' :: '.' :: name.reverse := by
    rw [List.dropWhile_append_of_pos hd]
    simp [List.dropWhile]
  unfold matchPartRar
  rw [hrev]
  simp only [ht, hdr]
  simp [hds]

/-- Cutting at the first `.part` gives the whole name when the name holds no
`.part`. -/
theorem splitHead_part (name rest : Str) (h : Contains name ".part".toList = false) :
    splitHead (name ++ ".part".toList ++ rest) ".part".toList = name := by
  induction name with
  | nil => simp [splitHead]
  | cons c s ih =>
    have h1 : ".part".toList.isPrefixOf (c :: s) = false := by
      simp [Contains] at h
      simpa using h.1
    have h2 : Contains s ".part".toList = false := by
      simp [Contains] at h
      exact h.2
    have h3 : ".part".toList.isPrefixOf (c :: s ++ ".part".toList ++ rest) = false := by
      rcases s with _ | ⟨a1, _ | ⟨a2, _ | ⟨a3, _ | ⟨a4, s4⟩⟩⟩⟩
      all_goals simp [List.isPrefixOf] at h1 ⊢
      all_goals tauto
    simp only [List.cons_append, List.append_assoc] at h3 ⊢
    rw [splitHead, h3]
    simp only [Bool.false_eq_true, if_false]
    rw [← List.append_assoc, ih h2]
theorem take_length_sub_append (stem tail : Str) (n : Nat) (h : tail.length = n) :
    (stem ++ tail).take ((stem ++ tail).length - n) = stem := by
  subst h
  simp

/-! ## `filepath.Clean`, `filepath.Base`, `filepath.Dir`

### The elements of a path -/

theorem Clean_eq_render (p : Str) : Clean p = render (isRooted p) (cleanElems p).reverse := by
  cases p with
  | nil => rfl
  | cons c s => rfl

theorem splitPath_ne_nil (p : Str) : splitPath p ≠ [] := by
  cases p with
  | nil => simp [splitPath]
  | cons c s =>
    unfold splitPath
    split_ifs
    · simp
    · split <;> simp

theorem splitPath_cons_sep (c : Char) (s : Str) (hc : isSep c = true) :
    splitPath (c :: s) = [] :: splitPath s := by
  rw [splitPath, if_pos hc]

theorem splitPath_cons_not_sep (c : Char) (s e : Str) (es : List Str) (hc : isSep c = false)
    (h : splitPath s = e :: es) : splitPath (c :: s) = (c :: e) :: es := by
  rw [splitPath, if_neg (by simp [hc]), h]

theorem splitPath_sepFree (f : Str) (hf : SepFree f) : splitPath f = [f] := by
  induction f with
  | nil => rfl
  | cons c s ih =>
    have hc : isSep c = false := hf c (by simp)
    have hs : SepFree s := fun x hx => hf x (by simp [hx])
    exact splitPath_cons_not_sep c s s [] hc (ih hs)

theorem splitPath_append_sep (p f : Str) (hf : SepFree f) :
    splitPath (p ++ '/' :: f) = splitPath p ++ [f] := by
  induction p with
  | nil =>
    rw [List.nil_append, splitPath_cons_sep '/' f rfl, splitPath_sepFree f hf]
    rfl
  | cons c s ih =>
    by_cases hc : isSep c = true
    · rw [List.cons_append, splitPath_cons_sep _ _ hc, splitPath_cons_sep _ _ hc, ih]
      rfl
    · have hc2 : isSep c = false := by simpa using hc
      rcases hsp : splitPath s with _ | ⟨e, es⟩
      · exact absurd hsp (splitPath_ne_nil s)
      · rw [List.cons_append, splitPath_cons_not_sep c _ e (es ++ [f]) hc2 (by rw [ih, hsp]; rfl),
          splitPath_cons_not_sep c s e es hc2 hsp]
        rfl

theorem splitPath_all_sepFree (p : Str) : ∀ e ∈ splitPath p, SepFree e := by
  induction p with
  | nil => intro e he; simp [splitPath] at he; subst he; intro c hc; simp at hc
  | cons c s ih =>
    intro e he
    by_cases hc : isSep c = true
    · rw [splitPath_cons_sep _ _ hc] at he
      rcases List.mem_cons.1 he with rfl | he
      · intro x hx; simp at hx
      · exact ih e he
    · have hc2 : isSep c = false := by simpa using hc
      rcases hsp : splitPath s with _ | ⟨e0, es⟩
      · exact absurd hsp (splitPath_ne_nil s)
      · rw [splitPath_cons_not_sep c s e0 es hc2 hsp] at he
        rw [hsp] at ih
        rcases List.mem_cons.1 he with rfl | he
        · intro x hx
          rcases List.mem_cons.1 hx with rfl | hx
          · exact hc2
          · exact ih e0 (by simp) x hx
        · exact ih e (by simp [he])

/-! ### Writing out and reading back -/

theorem intercalate_cons_cons (e e2 : Str) (es : List Str) :
    List.intercalate ['/'] (e :: e2 :: es) = e ++ '/' :: List.intercalate ['/'] (e2 :: es) := by
  simp [List.intercalate, List.intersperse]

theorem intercalate_append_singleton (es : List Str) (f : Str) (h : es ≠ []) :
    List.intercalate ['/'] (es ++ [f]) = List.intercalate ['/'] es ++ '/' :: f := by
  induction es with
  | nil => exact absurd rfl h
  | cons e rest ih =>
    cases rest with
    | nil => simp [List.intercalate, List.intersperse]
    | cons e2 rest2 =>
      rw [List.cons_append, List.cons_append, intercalate_cons_cons, ← List.cons_append,
        ih (by simp), intercalate_cons_cons]
      simp

theorem cleanStep_nil (rooted : Bool) (out : List Str) : cleanStep rooted out [] = out := by
  simp [cleanStep]

theorem cleanStep_name (rooted : Bool) (out : List Str) (f : Str) (hf : IsName f) :
    cleanStep rooted out f = f :: out := by
  obtain ⟨h1, -, h2, h3⟩ := hf
  simp [cleanStep, h1, h2, h3]

/-- Reading back the elements of a written path gives the same steps as the
elements themselves. -/
theorem foldl_cleanStep_intercalate (rooted : Bool) (es : List Str)
    (hes : ∀ e ∈ es, SepFree e) (acc : List Str) :
    (splitPath (List.intercalate ['/'] es)).foldl (cleanStep rooted) acc =
      es.foldl (cleanStep rooted) acc := by
  induction es using List.reverseRecOn with
  | nil => simp [List.intercalate, splitPath, cleanStep_nil]
  | append_singleton es f ih =>
    have hf : SepFree f := hes f (by simp)
    have hes2 : ∀ e ∈ es, SepFree e := fun e he => hes e (by simp [he])
    by_cases h : es = []
    · subst h
      have : List.intercalate ['/'] ([] ++ [f]) = f := by simp [List.intercalate]
      rw [this, splitPath_sepFree f hf]
      rfl
    · rw [intercalate_append_singleton es f h, splitPath_append_sep _ _ hf, List.foldl_append,
        ih hes2, List.foldl_append]

/-! ### Cleaned paths -/

theorem sepFree_dotdot : SepFree ['.', '.'] := by
  intro c hc
  simp at hc
  subst hc
  rfl

theorem CleanStack.sepFree {rooted : Bool} {st : List Str} (h : CleanStack rooted st) :
    ∀ e ∈ st, SepFree e := by
  induction st with
  | nil => intro e he; simp at he
  | cons e below ih =>
    obtain ⟨he, hb⟩ := h
    intro x hx
    rcases List.mem_cons.1 hx with rfl | hx
    · rcases he with hn | ⟨rfl, -, -⟩
      · exact hn.2.1
      · exact sepFree_dotdot
    · exact ih hb x hx

theorem CleanStack.ne_nil {rooted : Bool} {st : List Str} (h : CleanStack rooted st) :
    ∀ e ∈ st, e ≠ [] := by
  induction st with
  | nil => intro e he; simp at he
  | cons e below ih =>
    obtain ⟨he, hb⟩ := h
    intro x hx
    rcases List.mem_cons.1 hx with rfl | hx
    · rcases he with hn | ⟨rfl, -, -⟩
      · exact hn.1
      · simp
    · exact ih hb x hx

theorem cleanStep_dotdot_nil (rooted : Bool) :
    cleanStep rooted [] ['.', '.'] = if rooted then [] else [['.', '.']] := rfl

theorem cleanStep_dotdot_cons (rooted : Bool) (top : Str) (below : List Str) :
    cleanStep rooted (top :: below) ['.', '.'] =
      if top = ['.', '.'] then ['.', '.'] :: top :: below else below := rfl

/-- One step of cleaning keeps the elements written so far a cleaned path. -/
theorem cleanStep_cleanStack (rooted : Bool) (out : List Str) (e : Str)
    (hout : CleanStack rooted out) (he : SepFree e) : CleanStack rooted (cleanStep rooted out e) := by
  by_cases h3 : e = ['.', '.']
  · subst h3
    cases out with
    | nil =>
      rw [cleanStep_dotdot_nil]
      cases rooted with
      | true => exact hout
      | false => exact ⟨Or.inr ⟨rfl, rfl, by simp⟩, trivial⟩
    | cons top below =>
      rw [cleanStep_dotdot_cons]
      obtain ⟨ht, hb⟩ := hout
      by_cases h4 : top = ['.', '.']
      · rw [if_pos h4]
        rcases ht with hn | ⟨-, hr, hall⟩
        · exact absurd h4 hn.2.2.2
        · refine ⟨Or.inr ⟨rfl, hr, ?_⟩, ⟨Or.inr ⟨h4, hr, hall⟩, hb⟩⟩
          intro x hx
          rcases List.mem_cons.1 hx with rfl | hx
          · exact h4
          · exact hall x hx
      · rw [if_neg h4]
        exact hb
  · unfold cleanStep
    by_cases h1 : e = []
    · simpa [h1] using hout
    by_cases h2 : e = ['.']
    · simpa [h2] using hout
    rw [if_neg h1, if_neg h2, if_neg h3]
    exact ⟨Or.inl ⟨h1, he, h2, h3⟩, hout⟩

theorem foldl_cleanStep_cleanStack (rooted : Bool) (es : List Str) (hes : ∀ e ∈ es, SepFree e)
    (acc : List Str) (hacc : CleanStack rooted acc) :
    CleanStack rooted (es.foldl (cleanStep rooted) acc) := by
  induction es generalizing acc with
  | nil => exact hacc
  | cons e rest ih =>
    exact ih (fun x hx => hes x (by simp [hx])) _
      (cleanStep_cleanStack rooted acc e hacc (hes e (by simp)))

/-- The elements `filepath.Clean` keeps are a cleaned path. -/
theorem cleanElems_cleanStack (p : Str) : CleanStack (isRooted p) (cleanElems p) :=
  foldl_cleanStep_cleanStack _ _ (splitPath_all_sepFree p) [] trivial

/-- Cleaning the elements of a cleaned path keeps all of them. -/
theorem foldl_cleanStep_reverse (rooted : Bool) (st : List Str) (h : CleanStack rooted st) :
    st.reverse.foldl (cleanStep rooted) [] = st := by
  induction st with
  | nil => rfl
  | cons e below ih =>
    obtain ⟨he, hb⟩ := h
    rw [List.reverse_cons, List.foldl_append, ih hb]
    rcases he with hn | ⟨rfl, hr, hall⟩
    · exact cleanStep_name rooted below e hn
    · subst hr
      cases below with
      | nil => rfl
      | cons top rest =>
        have : top = ['.', '.'] := hall top (by simp)
        subst this
        rfl

theorem intercalate_eq_nil (es : List Str) (hne : ∀ e ∈ es, e ≠ [])
    (h : List.intercalate ['/'] es = []) : es = [] := by
  cases es with
  | nil => rfl
  | cons e rest =>
    cases rest with
    | nil =>
      have : List.intercalate ['/'] [e] = e := by simp [List.intercalate]
      rw [this] at h
      exact absurd h (hne e (by simp))
    | cons e2 rest2 =>
      rw [intercalate_cons_cons] at h
      simp at h

theorem isRooted_intercalate (es : List Str) (hne : ∀ e ∈ es, e ≠ [])
    (hsf : ∀ e ∈ es, SepFree e) : isRooted (List.intercalate ['/'] es) = false := by
  cases es with
  | nil => rfl
  | cons e rest =>
    have he : e ≠ [] := hne e (by simp)
    have hs : SepFree e := hsf e (by simp)
    cases e with
    | nil => exact absurd rfl he
    | cons c s =>
      have hc : isSep c = false := hs c (by simp)
      cases rest with
      | nil => simpa [List.intercalate, isRooted] using hc
      | cons e2 rest2 =>
        rw [intercalate_cons_cons]
        simpa [isRooted] using hc

theorem render_ne_nil (rooted : Bool) (es : List Str) : render rooted es ≠ [] := by
  unfold render
  split_ifs with h1 h2
  · simp
  · simp
  · exact h2

theorem isRooted_render (rooted : Bool) (st : List Str) (h : CleanStack rooted st) :
    isRooted (render rooted st.reverse) = rooted := by
  have hne : ∀ e ∈ st.reverse, e ≠ [] := fun e he => h.ne_nil e (by simpa using he)
  have hsf : ∀ e ∈ st.reverse, SepFree e := fun e he => h.sepFree e (by simpa using he)
  unfold render
  cases rooted with
  | true => rfl
  | false =>
    simp only [Bool.false_eq_true, if_false]
    split_ifs with h2
    · rfl
    · exact isRooted_intercalate _ hne hsf

theorem isRooted_append (p q : Str) (h : p ≠ []) : isRooted (p ++ q) = isRooted p := by
  cases p with
  | nil => exact absurd rfl h
  | cons c s => rfl

/-- Reading back a written cleaned path gives its elements. -/
theorem foldl_cleanStep_render (rooted : Bool) (st : List Str) (h : CleanStack rooted st) :
    (splitPath (render rooted st.reverse)).foldl (cleanStep rooted) [] = st := by
  have hne : ∀ e ∈ st.reverse, e ≠ [] := fun e he => h.ne_nil e (by simpa using he)
  have hsf : ∀ e ∈ st.reverse, SepFree e := fun e he => h.sepFree e (by simpa using he)
  unfold render
  cases rooted with
  | true =>
    rw [if_pos rfl, splitPath_cons_sep '/' _ rfl, List.foldl_cons, cleanStep_nil,
      foldl_cleanStep_intercalate _ _ hsf, foldl_cleanStep_reverse _ _ h]
  | false =>
    simp only [Bool.false_eq_true, if_false]
    split_ifs with h2
    · have : st.reverse = [] := intercalate_eq_nil _ hne h2
      have : st = [] := by simpa using this
      subst this
      rfl
    · rw [foldl_cleanStep_intercalate _ _ hsf, foldl_cleanStep_reverse _ _ h]

/-- The elements kept for a cleaned path followed by a separator and one more
element: those of the cleaned path, and one step for the new element. -/
theorem cleanElems_render_append (rooted : Bool) (st : List Str) (h : CleanStack rooted st)
    (f : Str) (hf : SepFree f) :
    cleanElems (render rooted st.reverse ++ '/' :: f) = cleanStep rooted st f := by
  unfold cleanElems
  rw [isRooted_append _ _ (render_ne_nil _ _), isRooted_render _ _ h,
    splitPath_append_sep _ _ hf, List.foldl_append, foldl_cleanStep_render _ _ h]
  rfl

theorem cleanElems_render (rooted : Bool) (st : List Str) (h : CleanStack rooted st) :
    cleanElems (render rooted st.reverse) = st := by
  unfold cleanElems
  rw [isRooted_render _ _ h, foldl_cleanStep_render _ _ h]

/-- `filepath.Clean` changes no path that it has made. -/
theorem Clean_Clean (q : Str) : Clean (Clean q) = Clean q := by
  have h := cleanElems_cleanStack q
  rw [Clean_eq_render q, Clean_eq_render (render _ _), isRooted_render _ _ h,
    cleanElems_render _ _ h]

/-! ### The last element and the directory of a joined path -/

theorem Join_pair (d f : Str) (hd : d ≠ []) : Join [d, f] = Clean (d ++ '/' :: f) := by
  cases d with
  | nil => exact absurd rfl hd
  | cons c s => simp [Join, List.intercalate, List.intersperse]

theorem Clean_ne_nil (q : Str) : Clean q ≠ [] := by
  rw [Clean_eq_render]
  exact render_ne_nil _ _

theorem render_append_singleton (rooted : Bool) (es : List Str) (f : Str) (hf : f ≠ [])
    (hne : ∀ e ∈ es, e ≠ []) : render rooted (es ++ [f]) = renderDir rooted es ++ f := by
  unfold renderDir render
  by_cases h : es = []
  · subst h
    have h1 : List.intercalate ['/'] ([] ++ [f]) = f := by simp [List.intercalate]
    rw [h1]
    cases rooted <;> simp [hf]
  · rw [intercalate_append_singleton es f h, if_neg h]
    have h2 : List.intercalate ['/'] es ≠ [] := fun h3 => h (intercalate_eq_nil es hne h3)
    cases rooted <;> simp [h2]

theorem Clean_renderDir (rooted : Bool) (st : List Str) (h : CleanStack rooted st) :
    Clean (renderDir rooted st.reverse) = render rooted st.reverse := by
  unfold renderDir
  by_cases hs : st.reverse = []
  · have : st = [] := by simpa using hs
    subst this
    cases rooted <;> rfl
  · rw [if_neg hs, Clean_eq_render,
      cleanElems_render_append rooted st h [] (by intro c hc; simp at hc),
      isRooted_append _ _ (render_ne_nil _ _), isRooted_render _ _ h, cleanStep_nil]

theorem renderDir_shape (rooted : Bool) (es : List Str) :
    renderDir rooted es = [] ∨ ∃ pre, renderDir rooted es = pre ++ ['/'] := by
  unfold renderDir
  split_ifs
  · exact Or.inr ⟨[], rfl⟩
  · exact Or.inl rfl
  · exact Or.inr ⟨_, rfl⟩

/-- The base name of a path that ends in a file name after a separator, or
is a file name. -/
theorem Base_append_name (pre f : Str) (hf : f ≠ []) (hsf : SepFree f)
    (hpre : pre = [] ∨ ∃ pre2, pre = pre2 ++ ['/']) : Base (pre ++ f) = f := by
  have hnot : ∀ c ∈ f.reverse, (fun c => !isSep c) c = true := by
    intro c hc
    simp [hsf c (by simpa using hc)]
  have hstrip : (pre ++ f).reverse.dropWhile isSep = (pre ++ f).reverse := by
    rw [List.reverse_append]
    rcases hrev : f.reverse with _ | ⟨c, s⟩
    · exact absurd (by simpa using hrev) hf
    · have hc : isSep c = false := hsf c (by
        have : c ∈ f.reverse := by rw [hrev]; simp
        simpa using this)
      simp [List.dropWhile, hc]
  have htake : (pre ++ f).reverse.takeWhile (fun c => !isSep c) = f.reverse := by
    rw [List.reverse_append, List.takeWhile_append_of_pos hnot]
    rcases hpre with rfl | ⟨pre2, rfl⟩
    · simp
    · have : isSep '/' = true := rfl
      simp [List.takeWhile, this]
  unfold Base
  have hne : pre ++ f ≠ [] := by simp [hf]
  rw [if_neg hne]
  simp only [hstrip, List.reverse_reverse, htake]
  rw [if_neg hf]

/-- The directory of such a path is the cleaned part before the name. -/
theorem Dir_append_name (pre f : Str) (hsf : SepFree f)
    (hpre : pre = [] ∨ ∃ pre2, pre = pre2 ++ ['/']) : Dir (pre ++ f) = Clean pre := by
  have hnot : ∀ c ∈ f.reverse, (fun c => !isSep c) c = true := by
    intro c hc
    simp [hsf c (by simpa using hc)]
  have hdrop : (pre ++ f).reverse.dropWhile (fun c => !isSep c) = pre.reverse := by
    rw [List.reverse_append, List.dropWhile_append_of_pos hnot]
    rcases hpre with rfl | ⟨pre2, rfl⟩
    · simp
    · have : isSep '/' = true := rfl
      simp [List.dropWhile, this]
  unfold Dir
  rw [hdrop, List.reverse_reverse]

/-- The path that `filepath.Join` makes of a cleaned path and a file name. -/
theorem Join_Clean_name (q f : Str) (hf : IsName f) :
    Join [Clean q, f] = renderDir (isRooted q) (cleanElems q).reverse ++ f := by
  have h := cleanElems_cleanStack q
  rw [Join_pair _ _ (Clean_ne_nil q), Clean_eq_render q, Clean_eq_render (_ ++ _),
    isRooted_append _ _ (render_ne_nil _ _), isRooted_render _ _ h,
    cleanElems_render_append _ _ h f hf.2.1, cleanStep_name _ _ f hf, List.reverse_cons,
    render_append_singleton _ _ _ hf.1 (fun e he => h.ne_nil e (by simpa using he))]

/-- The base name of the path joined of a cleaned path and a file name is that
file name. -/
theorem Base_Join_Clean (q f : Str) (hf : IsName f) : Base (Join [Clean q, f]) = f := by
  rw [Join_Clean_name q f hf]
  exact Base_append_name _ _ hf.1 hf.2.1 (renderDir_shape _ _)

/-- The directory of the path joined of a cleaned path and a file name is that
cleaned path. -/
theorem Dir_Join_Clean (q f : Str) (hf : IsName f) : Dir (Join [Clean q, f]) = Clean q := by
  rw [Join_Clean_name q f hf, Dir_append_name _ _ hf.2.1 (renderDir_shape _ _),
    Clean_renderDir _ _ (cleanElems_cleanStack q), ← Clean_eq_render]

theorem Base_Join_Dir (p f : Str) (hf : IsName f) : Base (Join [Dir p, f]) = f :=
  Base_Join_Clean _ f hf

theorem Dir_Join_Dir (p f : Str) (hf : IsName f) : Dir (Join [Dir p, f]) = Dir p :=
  Dir_Join_Clean _ f hf

/-- A base name is the root or holds no separator. -/
theorem Base_sepFree (p : Str) : Base p = ['/'] ∨ SepFree (Base p) := by
  unfold Base
  by_cases h1 : p = []
  · right
    rw [if_pos h1]
    intro c hc
    simp at hc
    subst hc
    rfl
  · rw [if_neg h1]
    simp only
    split_ifs with h2
    · exact Or.inl rfl
    · right
      intro c hc
      have hc2 := List.mem_takeWhile_imp (List.mem_reverse.1 hc)
      simpa using hc2

theorem sepFree_append (a b : Str) (ha : SepFree a) (hb : SepFree b) : SepFree (a ++ b) := by
  intro c hc
  rcases List.mem_append.1 hc with h | h
  · exact ha c h
  · exact hb c h

/-- A base name that is longer than one character holds no separator, nor
does a stem of it. -/
theorem sepFree_stem_of_Base (path stem tail : Str) (h : Base path = stem ++ tail)
    (hlen : 2 ≤ tail.length) : SepFree stem := by
  rcases Base_sepFree path with hb | hb
  · rw [hb] at h
    have := congrArg List.length h
    simp at this
    omega
  · rw [h] at hb
    exact fun c hc => hb c (List.mem_append.2 (Or.inl hc))

/-- A stem without separator followed by an ending of three or more
characters without separator is a file name. -/
theorem isName_append (stem tail : Str) (hs : SepFree stem) (ht : SepFree tail)
    (hlen : 3 ≤ tail.length) : IsName (stem ++ tail) := by
  refine ⟨?_, sepFree_append _ _ hs ht, ?_, ?_⟩
  all_goals
    intro h
    have := congrArg List.length h
    simp only [List.length_append, List.length_nil, List.length_cons] at this
    omega

/-! ## findFirstVolume -/

/-- C8: for a path whose base name is a stem followed by `.7z.` and three
digits, `findFirstVolume` returns, with a nil error, the path joined of the
directory of the input and the name stem + `.7z.001`; that path has the base
name stem + `.7z.001` and the directory of the input; the result is the same
in every world, so no existence check decides it. -/
theorem findFirstVolume_7z_volume (w : World) (path stem : Str) (d1 d2 d3 : Char)
    (hbase : Base path = stem ++ ".7z.".toList ++ [d1, d2, d3])
    (h1 : d1.isDigit = true) (h2 : d2.isDigit = true) (h3 : d3.isDigit = true) :
    findFirstVolume w path = (Join [Dir path, stem ++ ".7z.001".toList], none) ∧
      Base (Join [Dir path, stem ++ ".7z.001".toList]) = stem ++ ".7z.001".toList ∧
      Dir (Join [Dir path, stem ++ ".7z.001".toList]) = Dir path ∧
      ∀ w2 : World, findFirstVolume w2 path = findFirstVolume w path := by
  have hb : Base path = stem ++ ['.', '7', 'z', '.', d1, d2, d3] := by simpa using hbase
  have hm : match7zVolume (Base path) = true := by
    rw [hb, match7zVolume_append, h1, h2, h3]; rfl
  have ht : (Base path).take ((Base path).length - 7) = stem := by
    rw [hb]; exact take_length_sub_append stem _ 7 rfl
  have key : ∀ v : World,
      findFirstVolume v path = (Join [Dir path, stem ++ ".7z.001".toList], none) := by
    intro v
    simp only [findFirstVolume, hm, ht, if_true]
  have hname : IsName (stem ++ ".7z.001".toList) :=
    isName_append stem _ (sepFree_stem_of_Base path stem _ hb (by simp))
      (by unfold SepFree; decide) (by decide)
  exact ⟨key w, Base_Join_Dir path _ hname, Dir_Join_Dir path _ hname,
    fun w2 => (key w2).trans (key w).symm⟩

/-- The example of C8: `x.7z.005` gives `x.7z.001`, whether or not files exist;
and a volume in a directory stays in that directory. -/
theorem findFirstVolume_7z_volume_witness :
    findFirstVolume emptyWorld "x.7z.005".toList = ("x.7z.001".toList, none) ∧
      findFirstVolume statWorld "x.7z.005".toList = ("x.7z.001".toList, none) ∧
      findFirstVolume emptyWorld "/data/set/x.7z.123".toList =
        ("/data/set/x.7z.001".toList, none) :=
  ⟨(findFirstVolume_7z_volume emptyWorld "x.7z.005".toList "x".toList '0' '0' '5'
      (by decide) (by decide) (by decide) (by decide)).1,
   (findFirstVolume_7z_volume statWorld "x.7z.005".toList "x".toList '0' '0' '5'
      (by decide) (by decide) (by decide) (by decide)).1,
   (findFirstVolume_7z_volume emptyWorld "/data/set/x.7z.123".toList "x".toList '1' '2' '3'
      (by decide) (by decide) (by decide) (by decide)).1⟩

/-- C9: for a path whose base name is a stem followed by `.z` and two digits,
`findFirstVolume` returns the path joined of the directory of the input and
the name stem + `.zip` when `os.Stat` succeeds on that path, and the input
path unchanged when it does not; the error is nil in both cases.  The joined
path has the base name stem + `.zip` and the directory of the input. -/
theorem findFirstVolume_zNN (w : World) (path stem : Str) (d1 d2 : Char)
    (hbase : Base path = stem ++ ".z".toList ++ [d1, d2])
    (h1 : d1.isDigit = true) (h2 : d2.isDigit = true) :
    findFirstVolume w path =
        (if w.Stat (Join [Dir path, stem ++ ".zip".toList]) = true then
          (Join [Dir path, stem ++ ".zip".toList], none)
        else (path, none)) ∧
      Base (Join [Dir path, stem ++ ".zip".toList]) = stem ++ ".zip".toList ∧
      Dir (Join [Dir path, stem ++ ".zip".toList]) = Dir path := by
  have hb : Base path = stem ++ ['.', 'z', d1, d2] := by simpa using hbase
  have hm7 : match7zVolume (Base path) = false := by rw [hb]; exact match7zVolume_zNN _ _ _
  have hmz : matchZipVolume (Base path) = false := by rw [hb]; exact matchZipVolume_zNN _ _ _
  have hmn : matchZNN (Base path) = true := by rw [hb, matchZNN_append, h1, h2]; rfl
  have hmp : matchPartRar (Base path) = false := by
    have : Base path = (stem ++ ['.', 'z', d1]) ++ [d2] := by simp [hb]
    rw [this]; exact matchPartRar_digit _ _ h2
  have hmr : matchRNN (Base path) = false := by rw [hb]; exact matchRNN_zNN _ _ _
  have ht : (Base path).take ((Base path).length - 4) = stem := by
    rw [hb]; exact take_length_sub_append stem _ 4 rfl
  have hname : IsName (stem ++ ".zip".toList) :=
    isName_append stem _ (sepFree_stem_of_Base path stem _ hb (by simp))
      (by unfold SepFree; decide) (by decide)
  refine ⟨?_, Base_Join_Dir path _ hname, Dir_Join_Dir path _ hname⟩
  simp only [findFirstVolume, hm7, hmz, hmn, hmp, hmr, ht]
  by_cases hs : w.Stat (Join [Dir path, stem ++ ".zip".toList]) = true
  · simp only [hs, if_true]
    simp
  · simp only [hs, if_false]
    simp

/-- The example of C9: `x.z01` gives `x.zip` when that file exists and `x.z01`
when it does not. -/
theorem findFirstVolume_zNN_witness :
    findFirstVolume statWorld "x.z01".toList = ("x.zip".toList, none) ∧
      findFirstVolume emptyWorld "x.z01".toList = ("x.z01".toList, none) :=
  ⟨(findFirstVolume_zNN statWorld "x.z01".toList "x".toList '0' '1'
      (by decide) (by decide) (by decide)).1,
   (findFirstVolume_zNN emptyWorld "x.z01".toList "x".toList '0' '1'
      (by decide) (by decide) (by decide)).1⟩

/-- C7: for a path whose base name is a match of none of the five split-volume
patterns, `findFirstVolume` returns the input path, character for character,
with a nil error, in every world. -/
theorem findFirstVolume_not_volume (w : World) (path : Str)
    (h7z : match7zVolume (Base path) = false)
    (hzip : matchZipVolume (Base path) = false)
    (hz : matchZNN (Base path) = false)
    (hpart : matchPartRar (Base path) = false)
    (hr : matchRNN (Base path) = false) :
    findFirstVolume w path = (path, none) := by
  simp [findFirstVolume, h7z, hzip, hz, hpart, hr]

/-- Two instances of C7: a `.zip` whose `.z01` exists, and a path that
`filepath.Clean` would change, both returned as they are. -/
theorem findFirstVolume_not_volume_witness :
    findFirstVolume statWorld "a//b/../data.zip".toList =
        ("a//b/../data.zip".toList, none) ∧
      findFirstVolume emptyWorld "./notes.txt".toList = ("./notes.txt".toList, none) :=
  ⟨findFirstVolume_not_volume statWorld "a//b/../data.zip".toList
      (by decide) (by decide) (by decide) (by decide) (by decide),
   findFirstVolume_not_volume emptyWorld "./notes.txt".toList
      (by decide) (by decide) (by decide) (by decide) (by decide)⟩

/-- C6: on the base name `my.party.part2.rar`, which is `my.party` followed by
`.part2.rar`, `findFirstVolume` cuts at the first `.part` and returns
`my.part1.rar`, not `my.party.part1.rar`, in every world. -/
theorem findFirstVolume_part_rar_first_marker (w : World) :
    Base "my.party.part2.rar".toList = "my.party".toList ++ ".part".toList ++ ['2'] ++ ".rar".toList ∧
      findFirstVolume w "my.party.part2.rar".toList = ("my.part1.rar".toList, none) ∧
      findFirstVolume w "my.party.part2.rar".toList ≠
        (Join [Dir "my.party.part2.rar".toList, "my.party".toList ++ ".part1.rar".toList],
          none) := by
  refine ⟨by decide, rfl, ?_⟩
  have : findFirstVolume w "my.party.part2.rar".toList = ("my.part1.rar".toList, none) := rfl
  rw [this]
  decide

/-- What the code does for every base name of the form name + `.part` +
digits + `.rar`: it returns, in every world, the path joined of the directory
of the input and of the part of the base name before its first `.part`,
followed by `.part1.rar`; that part is the name when the name holds no `.part`. -/
theorem findFirstVolume_part_rar (w : World) (path name ds : Str)
    (hbase : Base path = name ++ ".part".toList ++ ds ++ ".rar".toList)
    (hds : ds ≠ []) (hdig : ∀ c ∈ ds, c.isDigit = true) :
    findFirstVolume w path =
        (Join [Dir path, splitHead (Base path) ".part".toList ++ ".part1.rar".toList], none) ∧
      (Contains name ".part".toList = false →
        findFirstVolume w path = (Join [Dir path, name ++ ".part1.rar".toList], none)) := by
  have hlast : Base path = (name ++ ".part".toList ++ ds ++ ".ra".toList) ++ ['r'] := by
    rw [hbase]; simp
  have hm7 : match7zVolume (Base path) = false := by
    rw [hlast]; exact match7zVolume_not_digit _ _ (by decide)
  have hmz : matchZipVolume (Base path) = false := by
    rw [hlast]; exact matchZipVolume_not_digit _ _ (by decide)
  have hmn : matchZNN (Base path) = false := by
    rw [hlast]; exact matchZNN_not_digit _ _ (by decide)
  have hmp : matchPartRar (Base path) = true := by
    rw [hbase]; exact matchPartRar_append name ds hds hdig
  have key : findFirstVolume w path =
      (Join [Dir path, splitHead (Base path) ".part".toList ++ ".part1.rar".toList], none) := by
    simp [findFirstVolume, hm7, hmz, hmn, hmp]
  refine ⟨key, fun hc => ?_⟩
  rw [key, hbase, List.append_assoc, splitHead_part name _ hc]

/-! ## NewChecker -/

theorem findFirstVolume_error (w : World) (path : Str) : (findFirstVolume w path).2 = none := by
  unfold findFirstVolume
  simp only
  repeat' split
  all_goals rfl

/-- What `NewChecker` does for a path that is not empty, as one expression. -/
theorem NewChecker_of_ne_nil (w : World) (filePath : Str) (format : List Format)
    (h : filePath ≠ []) :
    NewChecker w filePath format =
      let t := actualFormat w filePath format
      let p := (findFirstVolume w filePath).1
      if t = TYPE_ZIP ∨ t = TYPE_ZIP_PART then (some (Checker.zipChecker p), none)
      else if t = TYPE_RAR ∨ t = TYPE_RAR_PART then (some (Checker.rarChecker p), none)
      else if t = TYPE_7Z ∨ t = TYPE_7Z_PART then (some (Checker.sevenZipChecker p), none)
      else (none, some Err.ErrUnsupportedFormat) := by
  have he := findFirstVolume_error w filePath
  unfold NewChecker actualFormat requestedTag
  rw [if_neg h]
  rcases hf : findFirstVolume w filePath with ⟨p, e⟩
  rw [hf] at he
  simp only at he
  subst he
  cases format <;> rfl

/-- What holds of the errors of `NewChecker`: it gives `ErrInvalidArgument`
exactly for the empty path, and then in every world alike; for a path that is
not empty it gives `ErrUnsupportedFormat` and no checker exactly when the
value of `actualFormat` at the switch has no strategy, and a checker with a
nil error otherwise. -/
theorem NewChecker_errors (w : World) (filePath : Str) (format : List Format) :
    ((NewChecker w filePath format).2 = some Err.ErrInvalidArgument ↔ filePath = []) ∧
    (filePath = [] →
      ∀ w2 : World, NewChecker w2 filePath format = (none, some Err.ErrInvalidArgument)) ∧
    (filePath ≠ [] →
      ((NewChecker w filePath format).2 = some Err.ErrUnsupportedFormat ↔
        ¬ supportedTag (actualFormat w filePath format)) ∧
      (¬ supportedTag (actualFormat w filePath format) →
        NewChecker w filePath format = (none, some Err.ErrUnsupportedFormat)) ∧
      (supportedTag (actualFormat w filePath format) →
        ∃ c, NewChecker w filePath format = (some c, none))) := by
  have hempty : filePath = [] →
      ∀ w2 : World, NewChecker w2 filePath format = (none, some Err.ErrInvalidArgument) := by
    rintro rfl w2
    rfl
  have hne : filePath ≠ [] →
      ((NewChecker w filePath format).2 = some Err.ErrUnsupportedFormat ↔
        ¬ supportedTag (actualFormat w filePath format)) ∧
      (¬ supportedTag (actualFormat w filePath format) →
        NewChecker w filePath format = (none, some Err.ErrUnsupportedFormat)) ∧
      (supportedTag (actualFormat w filePath format) →
        ∃ c, NewChecker w filePath format = (some c, none)) := by
    intro h
    rw [NewChecker_of_ne_nil w filePath format h]
    simp only [supportedTag]
    generalize actualFormat w filePath format = t
    by_cases h1 : t = TYPE_ZIP ∨ t = TYPE_ZIP_PART
    · simp only [if_pos h1]
      rcases h1 with h1 | h1 <;> simp [h1]
    by_cases h2 : t = TYPE_RAR ∨ t = TYPE_RAR_PART
    · simp only [if_neg h1, if_pos h2]
      rcases h2 with h2 | h2 <;> simp [h2]
    by_cases h3 : t = TYPE_7Z ∨ t = TYPE_7Z_PART
    · simp only [if_neg h1, if_neg h2, if_pos h3]
      rcases h3 with h3 | h3 <;> simp [h3]
    · simp only [if_neg h1, if_neg h2, if_neg h3]
      have : ¬ (t = TYPE_ZIP ∨ t = TYPE_ZIP_PART ∨ t = TYPE_RAR ∨ t = TYPE_RAR_PART ∨
          t = TYPE_7Z ∨ t = TYPE_7Z_PART) := by
        rintro (h | h | h | h | h | h)
        · exact h1 (Or.inl h)
        · exact h1 (Or.inr h)
        · exact h2 (Or.inl h)
        · exact h2 (Or.inr h)
        · exact h3 (Or.inl h)
        · exact h3 (Or.inr h)
      simp [this]
  refine ⟨⟨?_, fun h => by rw [hempty h w]⟩, hempty, hne⟩
  intro herr
  by_contra h
  rw [NewChecker_of_ne_nil w filePath format h] at herr
  simp only at herr
  split_ifs at herr
  simp at herr

/-- Instances: the empty path; a path with no strategy for what is detected; a
path with a requested tag that has a strategy. -/
theorem NewChecker_errors_witness :
    NewChecker emptyWorld [] [TYPE_RAR] = (none, some Err.ErrInvalidArgument) ∧
      NewChecker emptyWorld "notes.txt".toList [] = (none, some Err.ErrUnsupportedFormat) ∧
      (∃ c, NewChecker emptyWorld "notes.txt".toList [TYPE_RAR] = (some c, none)) :=
  ⟨(NewChecker_errors emptyWorld [] [TYPE_RAR]).2.1 rfl emptyWorld,
   ((NewChecker_errors emptyWorld "notes.txt".toList []).2.2 (by decide)).2.1 (by decide),
   ((NewChecker_errors emptyWorld "notes.txt".toList [TYPE_RAR]).2.2 (by decide)).2.2
      (by decide)⟩

/-- C4: for the path `notes.txt`, which is not empty, and the explicit tag
`ZIP`, which is one of the six tags with a strategy, `NewChecker` returns
`ErrUnsupportedFormat` and no checker, both when the file is missing and
when it is a text file: the tag 0 is taken for `FORMAT_AUTO`, detection runs
and finds no format. -/
theorem NewChecker_explicit_zip_unsupported :
    specEffectiveTag emptyWorld "notes.txt".toList [ZIP] = TYPE_ZIP ∧
      supportedTag (specEffectiveTag emptyWorld "notes.txt".toList [ZIP]) ∧
      NewChecker emptyWorld "notes.txt".toList [ZIP] = (none, some Err.ErrUnsupportedFormat) ∧
      supportedTag (specEffectiveTag textFileWorld "notes.txt".toList [ZIP]) ∧
      getFileType textFileWorld "notes.txt".toList = -1 ∧
      NewChecker textFileWorld "notes.txt".toList [ZIP] =
        (none, some Err.ErrUnsupportedFormat) := by
  refine ⟨rfl, by decide, by decide, by decide, by decide, by decide⟩

/-- C1: the tag `ZIP` is the number 0, which is also `FORMAT_AUTO`, so a
request that names `ZIP` is treated as a request to detect: in every world
`NewChecker` with `ZIP` equals `NewChecker` with no format; for the path
`x.7z.001` it returns the 7-Zip strategy in every world, and for an archive
`a.rar` that is detected as RAR it returns the RAR strategy; in neither case
the ZIP strategy. -/
theorem NewChecker_explicit_zip_is_auto :
    ZIP = TYPE_ZIP ∧ ZIP = FORMAT_AUTO ∧
      (∀ (w : World) (filePath : Str), NewChecker w filePath [ZIP] = NewChecker w filePath []) ∧
      (∀ w : World, NewChecker w "x.7z.001".toList [ZIP] =
        (some (Checker.sevenZipChecker "x.7z.001".toList), none)) ∧
      getFileType plainRarWorld "a.rar".toList = TYPE_RAR ∧
      NewChecker plainRarWorld "a.rar".toList [ZIP] =
        (some (Checker.rarChecker "a.rar".toList), none) :=
  ⟨rfl, rfl, fun _ _ => rfl, fun _ => rfl, by decide, by decide⟩

/-- The other five tags that have a strategy are not `FORMAT_AUTO`: for them
`NewChecker` returns the strategy of the tag, bound to the first volume, and
the tag that detection would find plays no part. -/
theorem NewChecker_explicit_tag (w : World) (filePath : Str) (h : filePath ≠ []) :
    NewChecker w filePath [TYPE_ZIP_PART] =
        (some (Checker.zipChecker (findFirstVolume w filePath).1), none) ∧
      NewChecker w filePath [TYPE_RAR] =
        (some (Checker.rarChecker (findFirstVolume w filePath).1), none) ∧
      NewChecker w filePath [TYPE_RAR_PART] =
        (some (Checker.rarChecker (findFirstVolume w filePath).1), none) ∧
      NewChecker w filePath [TYPE_7Z] =
        (some (Checker.sevenZipChecker (findFirstVolume w filePath).1), none) ∧
      NewChecker w filePath [TYPE_7Z_PART] =
        (some (Checker.sevenZipChecker (findFirstVolume w filePath).1), none) := by
  refine ⟨?_, ?_, ?_, ?_, ?_⟩ <;>
    · rw [NewChecker_of_ne_nil w filePath _ h]
      rfl

/-! ## getFileType -/

/-- C10: the base names `notes.zip.txt` and `my.party.rar` are instances of none
of the patterns `*.7z.NNN`, `*.zip.NNN`, `*.z01`, `*.partN.rar`, `*.r01`,
`*.tar.NNN`, and `getFileType` returns the volume tags `TYPE_ZIP_PART` and
`TYPE_RAR_PART` for them in every world, without opening the file. -/
theorem getFileType_volume_tag_outside_patterns (w : World) :
    specVolumeTagOfName (ToLower w.lowerRune (Base "notes.zip.txt".toList)) = none ∧
      getFileType w "notes.zip.txt".toList = TYPE_ZIP_PART ∧
      specVolumeTagOfName (ToLower w.lowerRune (Base "my.party.rar".toList)) = none ∧
      getFileType w "my.party.rar".toList = TYPE_RAR_PART :=
  ⟨rfl, rfl, rfl, rfl⟩

/-! ## zipChecker -/

/-- C3: when the archive the checker is bound to opens and none of its entries
is encrypted, `zipChecker.CheckPassword` returns matched = true, the empty
password and a nil error, for every `filePath` argument and every password. -/
theorem zipCheckPassword_not_encrypted (w : World) (FilePath filePath password : Str)
    (files : List ZipFile) (hopen : w.zipOpenReader FilePath = .ok files)
    (hplain : ∀ f ∈ files, f.IsEncrypted = false) :
    zipCheckPassword w FilePath filePath password = (true, [], none) := by
  have hany : files.any (fun f => f.IsEncrypted) = false := by
    rw [List.any_eq_false]
    intro f hf
    simp [hplain f hf]
  simp [zipCheckPassword, hopen, hany]

/-- Instances of C3: the archive `a.zip` of `plainZipWorld`, with a password and
with the empty password. -/
theorem zipCheckPassword_not_encrypted_witness :
    zipCheckPassword plainZipWorld "a.zip".toList "a.zip".toList "secret".toList =
        (true, [], none) ∧
      zipCheckPassword plainZipWorld "a.zip".toList "a.zip".toList [] = (true, [], none) :=
  ⟨zipCheckPassword_not_encrypted plainZipWorld "a.zip".toList "a.zip".toList "secret".toList
      [{ IsEncrypted := false, attempt := fun _ => .readOk },
       { IsEncrypted := false, attempt := fun _ => .readOk }] rfl (by simp),
   zipCheckPassword_not_encrypted plainZipWorld "a.zip".toList "a.zip".toList []
      [{ IsEncrypted := false, attempt := fun _ => .readOk },
       { IsEncrypted := false, attempt := fun _ => .readOk }] rfl (by simp)⟩

/-! ## sevenZipChecker -/

/-- There is no entry to select exactly when every entry is a directory or is
empty. -/
theorem sevenZipSelected_eq_none (r : List SevenZipFile) :
    sevenZipSelected r = none ↔ ∀ f ∈ r, f.IsDir = true ∨ f.UncompressedSize = 0 := by
  unfold sevenZipSelected
  constructor
  · intro h
    split at h
    · simp at h
    · intro f hf
      have := (List.find?_eq_none.1 h) f hf
      by_cases hd : f.IsDir = true
      · exact Or.inl hd
      · right
        simp [sevenZipFirstNonEmpty, hd] at this ⊢
        simpa using this
  · intro h
    have h1 : sevenZipFirstSmall r = none := by
      unfold sevenZipFirstSmall
      rw [List.find?_eq_none]
      intro f hf
      rcases h f hf with hd | hz
      · simp [hd]
      · simp [hz]
    have h2 : sevenZipFirstNonEmpty r = none := by
      unfold sevenZipFirstNonEmpty
      rw [List.find?_eq_none]
      intro f hf
      rcases h f hf with hd | hz
      · simp [hd]
      · simp [hz]
    rw [h1]
    exact h2

/-- C2, as the claim states it, fails: the archive `x.7z.001` opens with the
empty password and its probe succeeds, and for the `filePath` argument
`x.7z.002` the result is matched = false with an error. -/
theorem sevenZipCheckPassword_suffix_gate :
    plain7zWorld.sevenzipOpenReaderWithPassword "x.7z.001".toList [] =
        some [{ IsDir := false, UncompressedSize := 10, Open := .opened true }] ∧
      sevenZipProbeOk [{ IsDir := false, UncompressedSize := 10, Open := .opened true }] = true ∧
      sevenZipCheckPassword plain7zWorld "x.7z.001".toList "x.7z.002".toList "secret".toList =
        (false, [], some Err.sevenZipSuffix) ∧
      sevenZipCheckPassword plain7zWorld "x.7z.001".toList "x.7z.002".toList "secret".toList ≠
        (true, [], none) := by
  decide

/-- C2, amended: for a `filePath` argument that ends, in lower case, in `.7z` or
in `.001`, and for every password, if the archive the checker is bound to
opens with the empty password and the probe succeeds on it (or finds no entry
to select), `sevenZipChecker.CheckPassword` returns matched = true, the empty
password and a nil error. -/
theorem sevenZipCheckPassword_empty_password (w : World) (FilePath filePath password : Str)
    (r : List SevenZipFile)
    (hname : HasSuffix (ToLower w.lowerRune filePath) ".7z".toList = true ∨
      HasSuffix (ToLower w.lowerRune filePath) ".001".toList = true)
    (hopen : w.sevenzipOpenReaderWithPassword FilePath [] = some r)
    (hprobe : sevenZipProbeOk r = true) :
    sevenZipCheckPassword w FilePath filePath password = (true, [], none) := by
  have htest : testFirstFile r [] = (true, [], none) := by
    unfold sevenZipProbeOk at hprobe
    unfold testFirstFile
    split at hprobe
    · rename_i hsel
      rw [hsel]
    · rename_i f hsel
      rw [hsel]
      have : f.Open = .opened true := by simpa using hprobe
      simp [this]
  have hgate : (!HasSuffix (ToLower w.lowerRune filePath) ".7z".toList &&
      !HasSuffix (ToLower w.lowerRune filePath) ".001".toList) = false := by
    rcases hname with h | h
    · simp only [h, Bool.not_true, Bool.false_and]
    · simp only [h, Bool.not_true, Bool.and_false]
  unfold sevenZipCheckPassword
  rw [hgate]
  simp [hopen, htest]

/-- Instances of C2 as amended: the archive `x.7z.001` of `plain7zWorld`, with a
password that plays no part, under the names `x.7z.001` and `X.7Z`. -/
theorem sevenZipCheckPassword_empty_password_witness :
    sevenZipCheckPassword plain7zWorld "x.7z.001".toList "x.7z.001".toList "secret".toList =
        (true, [], none) ∧
      sevenZipCheckPassword plain7zWorld "x.7z.001".toList "X.7Z".toList "secret".toList =
        (true, [], none) :=
  ⟨sevenZipCheckPassword_empty_password plain7zWorld "x.7z.001".toList "x.7z.001".toList
      "secret".toList [{ IsDir := false, UncompressedSize := 10, Open := .opened true }]
      (by decide) rfl (by decide),
   sevenZipCheckPassword_empty_password plain7zWorld "x.7z.001".toList "X.7Z".toList
      "secret".toList [{ IsDir := false, UncompressedSize := 10, Open := .opened true }]
      (by decide) rfl (by decide)⟩

/-! ## rarChecker -/

/-- C5: `rarChecker.CheckPassword` opens its `filePath` argument and makes no
use of the path the checker is bound to: the result is the same for any two
bound paths, and for the checker bound to `a.rar` the arguments `a.rar` and
`b.rar` give different results. -/
theorem rarCheckPassword_uses_argument :
    (∀ (w : World) (FilePath1 FilePath2 filePath password : Str),
      rarCheckPassword w FilePath1 filePath password =
        rarCheckPassword w FilePath2 filePath password) ∧
      rarCheckPassword plainRarWorld "a.rar".toList "a.rar".toList "secret".toList =
        (true, [], none) ∧
      rarCheckPassword plainRarWorld "a.rar".toList "b.rar".toList "secret".toList =
        (false, "secret".toList,
          some (Err.wrapOpenFileFailed "no such file or directory".toList)) :=
  ⟨fun _ _ _ _ _ => rfl, by decide, by decide⟩

/-! ## getFileType and files that cannot be read -/

/-- C11, as the claim states it, fails: in a world where no file can be
opened, `getFileType` returns the tag of a 7-Zip volume for `x.7z.001` and
the tag of a ZIP volume for `x.z01`, not -1. -/
theorem getFileType_unreadable_volume_name :
    emptyWorld.Open "x.7z.001".toList = .error "no such file or directory".toList ∧
      getFileType emptyWorld "x.7z.001".toList = TYPE_7Z_PART ∧
      getFileType emptyWorld "x.7z.001".toList ≠ -1 ∧
      getFileType emptyWorld "x.z01".toList = TYPE_ZIP_PART := by
  refine ⟨rfl, by decide, by decide, by decide⟩

/-- C11, amended: for a path whose lower-cased base name passes none of the
tests of the file-name stage, if the file cannot be opened, or cannot be read
after it is opened, `getFileType` returns -1, whatever the extension. -/
theorem getFileType_unreadable (w : World) (path : Str)
    (hname : getFileTypeByName (ToLower w.lowerRune (Base path)) = none)
    (hfile : (∃ msg, w.Open path = .error msg) ∨ (∃ msg, w.Open path = .ok (.readError msg))) :
    getFileType w path = -1 := by
  unfold getFileType
  simp only [hname]
  rcases hfile with ⟨msg, h⟩ | ⟨msg, h⟩ <;> rw [h]

/-- Instances of C11 as amended: a `.zip`, a `.rar` and a `.7z` name in a world
where no file can be opened. -/
theorem getFileType_unreadable_witness :
    getFileType emptyWorld "a.zip".toList = -1 ∧
      getFileType emptyWorld "dir/b.RAR".toList = -1 ∧
      getFileType emptyWorld "c.7z".toList = -1 :=
  ⟨getFileType_unreadable emptyWorld "a.zip".toList (by decide) (Or.inl ⟨_, rfl⟩),
   getFileType_unreadable emptyWorld "dir/b.RAR".toList (by decide) (Or.inl ⟨_, rfl⟩),
   getFileType_unreadable emptyWorld "c.7z".toList (by decide) (Or.inl ⟨_, rfl⟩)⟩

/-! ## NewChecker with the detected tag -/

/-- C15: in every world and for every path, `NewChecker` with the tag that
detection finds on the first volume gives the same result as `NewChecker`
with no format: the same strategy bound to the same path, or the same error. -/
theorem NewChecker_detected_tag (w : World) (filePath : Str) :
    NewChecker w filePath [getFileType w (findFirstVolume w filePath).1] =
      NewChecker w filePath [] := by
  by_cases h : filePath = []
  · subst h
    rfl
  · rw [NewChecker_of_ne_nil w filePath _ h, NewChecker_of_ne_nil w filePath _ h]
    have he : actualFormat w filePath [getFileType w (findFirstVolume w filePath).1] =
        actualFormat w filePath [] := by
      unfold actualFormat requestedTag
      simp only [if_true]
      split_ifs with h0
      · rfl
      · rfl
    simp only [he]

/-! ## zipChecker: errors -/

/-- C13: on the file `bad.zip`, on which `zip.OpenReader` fails with the message
`zip: not a valid zip file`, `zipChecker.CheckPassword` returns the wrapped
`ErrOpenFileFailed` and not `ErrUnsupportedFormat`, while the same message on
opening an entry gives `ErrUnsupportedFormat`. -/
theorem zipCheckPassword_malformed_container :
    notZipWorld.zipOpenReader "bad.zip".toList = .error "zip: not a valid zip file".toList ∧
      zipCheckPassword notZipWorld "bad.zip".toList "bad.zip".toList "secret".toList =
        (false, "secret".toList,
          some (Err.wrapOpenFileFailed "zip: not a valid zip file".toList)) ∧
      zipTryEntry
          { IsEncrypted := true,
            attempt := fun _ => .openError "zip: not a valid zip file".toList }
          "secret".toList =
        some (false, "secret".toList, some Err.ErrUnsupportedFormat) := by
  refine ⟨rfl, by decide, by decide⟩

/-- Whatever the message of the error of `zip.OpenReader`, the result is
matched = false with the wrapped `ErrOpenFileFailed`. -/
theorem zipCheckPassword_open_error (w : World) (FilePath filePath password msg : Str)
    (hopen : w.zipOpenReader FilePath = .error msg) :
    zipCheckPassword w FilePath filePath password =
      (false, password, some (Err.wrapOpenFileFailed msg)) := by
  simp [zipCheckPassword, hopen]

/-- The encrypted entries start with the first encrypted entry. -/
theorem filter_of_find? (files : List ZipFile) (f : ZipFile)
    (h : files.find? (fun f => f.IsEncrypted) = some f) :
    f.IsEncrypted = true ∧ files.any (fun f => f.IsEncrypted) = true ∧
      ∃ rest, files.filter (fun f => f.IsEncrypted) = f :: rest := by
  induction files with
  | nil => simp at h
  | cons g gs ih =>
    by_cases hg : g.IsEncrypted = true
    · have : g = f := by simpa [List.find?, hg] using h
      subst this
      exact ⟨hg, by simp [hg], ⟨gs.filter (fun f => f.IsEncrypted), by simp [List.filter, hg]⟩⟩
    · have hg2 : g.IsEncrypted = false := by simpa using hg
      have h2 : gs.find? (fun f => f.IsEncrypted) = some f := by
        simpa [List.find?, hg2] using h
      obtain ⟨h3, h4, rest, h5⟩ := ih h2
      exact ⟨h3, by simp [h4], ⟨rest, by simp [List.filter, hg2, h5]⟩⟩

/-- The body of the loop returns for every entry and every password. -/
theorem zipTryEntry_isSome (f : ZipFile) (password : Str) :
    (zipTryEntry f password).isSome = true := by
  unfold zipTryEntry
  split
  · split_ifs <;> rfl
  · split_ifs <;> rfl
  · rfl

/-- The result of `zipChecker.CheckPassword` is what the body of the loop
returns for the first encrypted entry. -/
theorem zipTryEntry_eq_zipCheckPassword (w : World) (FilePath filePath password : Str)
    (files : List ZipFile) (f : ZipFile)
    (hopen : w.zipOpenReader FilePath = .ok files)
    (hfirst : files.find? (fun f => f.IsEncrypted) = some f) :
    zipTryEntry f password = some (zipCheckPassword w FilePath filePath password) := by
  obtain ⟨hf, hany, rest, hfilter⟩ := filter_of_find? files f hfirst
  obtain ⟨r, hr⟩ := Option.isSome_iff_exists.1 (zipTryEntry_isSome f password)
  have hres : zipCheckPassword w FilePath filePath password = r := by
    simp [zipCheckPassword, hopen, hany, hfilter, zipLoop, hr]
  rw [hres, hr]

/-- C18: when the archive opens and has an encrypted entry, the result of
`zipChecker.CheckPassword` is what the body of the loop returns for the first
encrypted entry in the order of the directory; the body returns for every
entry, so the loop ends in its first round, the entries after the first
encrypted one play no part, and the return after the loop is not reached. -/
theorem zipCheckPassword_first_encrypted (w : World) (FilePath filePath password : Str)
    (files : List ZipFile) (f : ZipFile)
    (hopen : w.zipOpenReader FilePath = .ok files)
    (hfirst : files.find? (fun f => f.IsEncrypted) = some f) :
    (∀ (g : ZipFile) (pw : Str), (zipTryEntry g pw).isSome = true) ∧
      zipTryEntry f password = some (zipCheckPassword w FilePath filePath password) ∧
      (∀ rest : List ZipFile, zipLoop (f :: rest) password =
        zipCheckPassword w FilePath filePath password) := by
  obtain ⟨hf, hany, rest, hfilter⟩ := filter_of_find? files f hfirst
  have hsome := zipTryEntry_isSome f password
  obtain ⟨r, hr⟩ := Option.isSome_iff_exists.1 hsome
  have hres : zipCheckPassword w FilePath filePath password = r := by
    simp [zipCheckPassword, hopen, hany, hfilter, zipLoop, hr]
  refine ⟨zipTryEntry_isSome, by rw [hres, hr], fun rest2 => ?_⟩
  rw [hres]
  simp [zipLoop, hr]

/-- An instance of C18: in `e.zip` the first encrypted entry is `entry666`; the
password `666` matches and the password `885` does not, and the entry after
it, which cannot be opened, plays no part. -/
theorem zipCheckPassword_first_encrypted_witness :
    zipTryEntry entry666 "666".toList =
        some (zipCheckPassword encryptedZipWorld "e.zip".toList "e.zip".toList "666".toList) ∧
      zipCheckPassword encryptedZipWorld "e.zip".toList "e.zip".toList "666".toList =
        (true, "666".toList, none) ∧
      zipCheckPassword encryptedZipWorld "e.zip".toList "e.zip".toList "885".toList =
        (false, "885".toList, none) :=
  ⟨(zipCheckPassword_first_encrypted encryptedZipWorld "e.zip".toList "e.zip".toList
      "666".toList _ entry666 rfl rfl).2.1,
   by decide, by decide⟩

/-- A remark on the branch for an error of `Open` of an entry: it tests the
message for `password` and for `not a valid zip file` only, so an entry whose
`Open` failed with the message `zip: checksum error` would get the wrapped
`ErrOpenFileFailed`. -/
theorem zipCheckPassword_checksum_on_open :
    checksumOnOpenEntry.IsEncrypted = true ∧
      checksumOnOpenEntry.attempt "885".toList = .openError "zip: checksum error".toList ∧
      Contains "zip: checksum error".toList "checksum error".toList = true ∧
      zipCheckPassword encryptedZipWorld "c.zip".toList "c.zip".toList "885".toList =
        (false, "885".toList, some (Err.wrapOpenFileFailed "zip: checksum error".toList)) ∧
      zipCheckPassword encryptedZipWorld "c.zip".toList "c.zip".toList "885".toList ≠
        (false, "885".toList, none) := by
  refine ⟨rfl, rfl, by decide, by decide, by decide⟩

/-- The two branches for a failure on the first encrypted entry of an archive
that opens: a failure of reading its content with a message that contains
`checksum error` gives matched = false, the candidate password and a nil
error; a failure of opening the entry gives that result exactly when its
message contains `password`. -/
theorem zipCheckPassword_checksum (w : World) (FilePath filePath password msg : Str)
    (files : List ZipFile) (f : ZipFile)
    (hopen : w.zipOpenReader FilePath = .ok files)
    (hfirst : files.find? (fun f => f.IsEncrypted) = some f) :
    (f.attempt password = .readError msg → Contains msg "checksum error".toList = true →
      zipCheckPassword w FilePath filePath password = (false, password, none)) ∧
    (f.attempt password = .openError msg →
      (zipCheckPassword w FilePath filePath password = (false, password, none) ↔
        Contains msg "password".toList = true)) := by
  have hres := zipTryEntry_eq_zipCheckPassword w FilePath filePath password files f hopen hfirst
  constructor
  · intro hatt hmsg
    have : zipTryEntry f password = some (false, password, none) := by
      simp only [zipTryEntry, hatt, hmsg, Bool.or_true, if_true]
    rw [this] at hres
    exact (Option.some.inj hres).symm
  · intro hatt
    by_cases hp : Contains msg "password".toList = true
    · have : zipTryEntry f password = some (false, password, none) := by
        simp only [zipTryEntry, hatt, hp, if_true]
      rw [this] at hres
      exact ⟨fun _ => hp, fun _ => (Option.some.inj hres).symm⟩
    · have : ∃ e, zipTryEntry f password = some (false, password, some e) := by
        unfold zipTryEntry
        rw [hatt]
        simp only [if_neg hp]
        split_ifs
        · exact ⟨_, rfl⟩
        · exact ⟨_, rfl⟩
      obtain ⟨e, he⟩ := this
      rw [he] at hres
      have hval := (Option.some.inj hres).symm
      constructor
      · intro h
        rw [hval] at h
        simp at h
      · intro h
        exact absurd h hp

/-- C14: for the first encrypted entry of an archive that opens, a failure
with a message that contains `checksum error` gives matched = false, the
candidate password and a nil error: on reading the content of the entry, by
the test of the read branch; and on opening the entry, where the ZIP library,
which compares checksums when the content is read, lets `Open` fail with no
such message. -/
theorem zipCheckPassword_checksum_error (w : World) (FilePath filePath password msg : Str)
    (files : List ZipFile) (f : ZipFile)
    (hopen : w.zipOpenReader FilePath = .ok files)
    (hfirst : files.find? (fun f => f.IsEncrypted) = some f)
    (hmsg : Contains msg "checksum error".toList = true) :
    (f.attempt password = .readError msg →
      zipCheckPassword w FilePath filePath password = (false, password, none)) ∧
    (openReportsNoChecksum f → f.attempt password = .openError msg →
      zipCheckPassword w FilePath filePath password = (false, password, none)) := by
  constructor
  · intro h
    exact (zipCheckPassword_checksum w FilePath filePath password msg files f hopen hfirst).1
      h hmsg
  · intro hlib h
    have := hlib password msg h
    rw [this] at hmsg
    exact absurd hmsg (by decide)

theorem entry666_openReportsNoChecksum : openReportsNoChecksum entry666 := by
  intro pw msg h
  unfold entry666 at h
  simp only at h
  split_ifs at h

/-- An instance of C14: the entry `entry666` of `e.zip`, whose `Open` does not
fail, with the password `885`, for which reading fails with
`zip: checksum error`. -/
theorem zipCheckPassword_checksum_error_witness :
    openReportsNoChecksum entry666 ∧
      zipCheckPassword encryptedZipWorld "e.zip".toList "e.zip".toList "885".toList =
        (false, "885".toList, none) :=
  ⟨entry666_openReportsNoChecksum,
   (zipCheckPassword_checksum_error encryptedZipWorld "e.zip".toList "e.zip".toList
    "885".toList "zip: checksum error".toList _ entry666 rfl rfl (by decide)).1 rfl⟩

/-! ## rarChecker: an archive without password -/

/-- C12: the RAR4 archive `old.rar` opens with the empty password and its
first entry is listed, and for the candidate `secret` `rarChecker.CheckPassword`
returns the candidate as the password, not the empty password; the RAR5
archive `a.rar`, which is without password as well, gives the empty password. -/
theorem rarCheckPassword_rar4_keeps_candidate :
    readRarHeader plainRar4World "old.rar".toList = .ok rar4Signature ∧
      plainRar4World.rardecodeOpenReader "old.rar".toList [] = .ok plainRarReader ∧
      plainRarReader.Next = .header true ∧
      rarCheckPassword plainRar4World "old.rar".toList "old.rar".toList "secret".toList =
        (true, "secret".toList, none) ∧
      rarCheckPassword plainRar4World "old.rar".toList "old.rar".toList "secret".toList ≠
        (true, [], none) ∧
      rarCheckPassword plainRarWorld "a.rar".toList "a.rar".toList "secret".toList =
        (true, [], none) := by
  refine ⟨rfl, rfl, rfl, by decide, by decide, by decide⟩

/-- What the RAR5 branch does: when the first seven bytes of the file can be
read and are not the signature of RAR4, if the archive opens with the empty
password and its first entry is listed without error, the result is
matched = true, the empty password and a nil error, for every candidate. -/
theorem rarCheckPassword_rar5_not_encrypted (w : World) (FilePath filePath password : Str)
    (headerBytes : List Nat) (rr : RarReader) (nonNil : Bool)
    (hheader : readRarHeader w filePath = .ok headerBytes)
    (hrar5 : headerBytes ≠ rar4Signature)
    (hopen : w.rardecodeOpenReader filePath [] = .ok rr)
    (hnext : rr.Next = .header nonNil) :
    rarCheckPassword w FilePath filePath password = (true, [], none) := by
  unfold rarCheckPassword
  simp only [hheader, hopen, hnext, if_neg hrar5]

/-- An instance: the RAR5 archive `a.rar` of `plainRarWorld`. -/
theorem rarCheckPassword_rar5_not_encrypted_witness :
    rarCheckPassword plainRarWorld "a.rar".toList "a.rar".toList "secret".toList =
      (true, [], none) :=
  rarCheckPassword_rar5_not_encrypted plainRarWorld "a.rar".toList "a.rar".toList
    "secret".toList [0x52, 0x61, 0x72, 0x21, 0x1a, 0x07, 0x01] plainRarReader true
    rfl (by decide) rfl rfl

/-! ## sevenZipChecker: the entry that is tested -/

/-- C16: in `largerFirstEntries` the small entries are a file of 500 bytes and,
after it, a file of 10 bytes.  The smallest of them, which the words of the
specification select, is the file of 10 bytes; `testFirstFile` selects and
opens the file of 500 bytes, which does not open, and answers
matched = false, where a test of the file of 10 bytes answers matched = true. -/
theorem testFirstFile_first_small_entry :
    specSelected largerFirstEntries =
        some { IsDir := false, UncompressedSize := 10, Open := .opened true } ∧
      sevenZipSelected largerFirstEntries =
        some { IsDir := false, UncompressedSize := 500, Open := .openError } ∧
      testFirstFile largerFirstEntries "secret".toList = (false, "secret".toList, none) ∧
      testFirstFile [{ IsDir := false, UncompressedSize := 10, Open := .opened true }]
        "secret".toList = (true, "secret".toList, none) ∧
      testFirstFile largerFirstEntries.reverse "secret".toList =
        (true, "secret".toList, none) := by
  decide

theorem find?_append_first {α : Type} (p : α → Bool) (pre rest : List α) (a : α)
    (ha : p a = true) (hpre : ∀ x ∈ pre, p x = false) :
    (pre ++ a :: rest).find? p = some a := by
  induction pre with
  | nil => simp [List.find?, ha]
  | cons x xs ih =>
    have hx : p x = false := hpre x (by simp)
    rw [List.cons_append, List.find?, hx]
    exact ih (fun y hy => hpre y (by simp [hy]))

theorem find?_none_of_all {α : Type} (p : α → Bool) (l : List α)
    (h : ∀ x ∈ l, p x = false) : l.find? p = none := by
  rw [List.find?_eq_none]
  intro x hx
  simp [h x hx]

/-- What the two loops of `testFirstFile` select: the first small entry in the
order of the archive (small: no directory, size between 1 and 512); when no
entry is small, the first entry that is no directory and is not empty; and
when there is no such entry either, nothing, and the result is matched = true
with the password and a nil error. -/
theorem sevenZipSelected_first (pre rest : List SevenZipFile) (f : SevenZipFile)
    (password : Str) :
    (isSmallFile f → (∀ g ∈ pre, ¬ isSmallFile g) →
      sevenZipSelected (pre ++ f :: rest) = some f) ∧
    ((∀ g ∈ pre ++ f :: rest, ¬ isSmallFile g) → isNonEmptyFile f →
      (∀ g ∈ pre, ¬ isNonEmptyFile g) →
      sevenZipSelected (pre ++ f :: rest) = some f) ∧
    ((∀ g ∈ rest, ¬ isNonEmptyFile g) →
      sevenZipSelected rest = none ∧ testFirstFile rest password = (true, password, none)) := by
  have hsmall : ∀ g : SevenZipFile, ¬ isSmallFile g →
      (!g.IsDir && decide (g.UncompressedSize > 0) && decide (g.UncompressedSize ≤ 512)) =
        false := by
    intro g hg
    unfold isSmallFile at hg
    cases hd : g.IsDir
    · by_cases h1 : 0 < g.UncompressedSize
      · by_cases h2 : g.UncompressedSize ≤ 512
        · exact absurd ⟨hd, h1, h2⟩ hg
        · simp [h2]
      · simp [h1]
    · simp
  have hnon : ∀ g : SevenZipFile, ¬ isNonEmptyFile g →
      (!g.IsDir && decide (g.UncompressedSize > 0)) = false := by
    intro g hg
    unfold isNonEmptyFile at hg
    cases hd : g.IsDir
    · by_cases h1 : 0 < g.UncompressedSize
      · exact absurd ⟨hd, h1⟩ hg
      · simp [h1]
    · simp
  refine ⟨?_, ?_, ?_⟩
  · intro hf hpre
    have h1 : sevenZipFirstSmall (pre ++ f :: rest) = some f := by
      unfold sevenZipFirstSmall
      apply find?_append_first
      · obtain ⟨a, b, c⟩ := hf
        simp [a, b, c]
      · exact fun g hg => hsmall g (hpre g hg)
    unfold sevenZipSelected
    rw [h1]
  · intro hall hf hpre
    have h1 : sevenZipFirstSmall (pre ++ f :: rest) = none :=
      find?_none_of_all _ _ (fun g hg => hsmall g (hall g hg))
    have h2 : sevenZipFirstNonEmpty (pre ++ f :: rest) = some f := by
      unfold sevenZipFirstNonEmpty
      apply find?_append_first
      · obtain ⟨a, b⟩ := hf
        simp [a, b]
      · exact fun g hg => hnon g (hpre g hg)
    unfold sevenZipSelected
    rw [h1]
    exact h2
  · intro hall
    have h1 : sevenZipFirstSmall rest = none := by
      apply find?_none_of_all
      intro g hg
      apply hsmall
      intro hs
      exact hall g hg ⟨hs.1, hs.2.1⟩
    have h2 : sevenZipFirstNonEmpty rest = none :=
      find?_none_of_all _ _ (fun g hg => hnon g (hall g hg))
    have h3 : sevenZipSelected rest = none := by
      unfold sevenZipSelected
      rw [h1]
      exact h2
    refine ⟨h3, ?_⟩
    unfold testFirstFile
    rw [h3]

/-- Instances: the first small entry of `largerFirstEntries` is the file of 500
bytes; after a directory and with no small entry, the file of 4096 bytes is
selected; and an archive with one directory and one empty file gives
matched = true without a test. -/
theorem sevenZipSelected_first_witness :
    sevenZipSelected largerFirstEntries =
        some { IsDir := false, UncompressedSize := 500, Open := .openError } ∧
      sevenZipSelected
          [{ IsDir := true, UncompressedSize := 0, Open := .openError },
           { IsDir := false, UncompressedSize := 4096, Open := .opened true },
           { IsDir := false, UncompressedSize := 9000, Open := .opened true }] =
        some { IsDir := false, UncompressedSize := 4096, Open := .opened true } ∧
      testFirstFile
          [{ IsDir := true, UncompressedSize := 0, Open := .openError },
           { IsDir := false, UncompressedSize := 0, Open := .openError }] "secret".toList =
        (true, "secret".toList, none) :=
  ⟨(sevenZipSelected_first [] _ _ []).1 (by unfold isSmallFile; decide) (by simp),
   (sevenZipSelected_first [{ IsDir := true, UncompressedSize := 0, Open := .openError }]
      [{ IsDir := false, UncompressedSize := 9000, Open := .opened true }]
      { IsDir := false, UncompressedSize := 4096, Open := .opened true } []).2.1
      (by unfold isSmallFile; decide) (by unfold isNonEmptyFile; decide)
      (by unfold isNonEmptyFile; decide),
   ((sevenZipSelected_first []
      [{ IsDir := true, UncompressedSize := 0, Open := .openError },
       { IsDir := false, UncompressedSize := 0, Open := .openError }]
      { IsDir := true, UncompressedSize := 0, Open := .openError } "secret".toList).2.2
      (by unfold isNonEmptyFile; decide)).2⟩

/-! ## matched = true and the error -/

theorem matchedInvariant_false (password pw : Str) (e : Option Err) :
    matchedInvariant password (false, pw, e) := by
  simp [matchedInvariant]

theorem matchedInvariant_empty (password : Str) :
    matchedInvariant password (true, [], none) := by
  simp [matchedInvariant]

theorem matchedInvariant_candidate (password : Str) :
    matchedInvariant password (true, password, none) := by
  simp [matchedInvariant]

theorem zipTryEntry_invariant (f : ZipFile) (password : Str) (r : CheckResult)
    (h : zipTryEntry f password = some r) : matchedInvariant password r := by
  unfold zipTryEntry at h
  split at h
  · split_ifs at h <;> cases h <;> exact matchedInvariant_false _ _ _
  · split_ifs at h <;> cases h <;> exact matchedInvariant_false _ _ _
  · cases h
    exact matchedInvariant_candidate _

theorem zipLoop_invariant (files : List ZipFile) (password : Str) :
    matchedInvariant password (zipLoop files password) := by
  induction files with
  | nil => exact matchedInvariant_false _ _ _
  | cons f rest ih =>
    unfold zipLoop
    cases h : zipTryEntry f password with
    | none => exact ih
    | some r => exact zipTryEntry_invariant f password r h

theorem zipCheckPassword_invariant (w : World) (FilePath filePath password : Str) :
    matchedInvariant password (zipCheckPassword w FilePath filePath password) := by
  unfold zipCheckPassword
  simp only
  split
  · exact matchedInvariant_false _ _ _
  · split_ifs
    · exact matchedInvariant_empty _
    · exact zipLoop_invariant _ _

theorem testFirstFile_invariant (r : List SevenZipFile) (password : Str) :
    matchedInvariant password (testFirstFile r password) := by
  unfold testFirstFile
  split
  · split
    · exact matchedInvariant_false _ _ _
    · split_ifs
      · exact matchedInvariant_false _ _ _
      · exact matchedInvariant_candidate _
  · exact matchedInvariant_candidate _

theorem sevenZipWithPassword_invariant (w : World) (FilePath password : Str) :
    matchedInvariant password (sevenZipWithPassword w FilePath password) := by
  unfold sevenZipWithPassword
  split_ifs
  · split
    · exact matchedInvariant_false _ _ _
    · exact testFirstFile_invariant _ _
  · exact matchedInvariant_false _ _ _

theorem sevenZipCheckPassword_invariant (w : World) (FilePath filePath password : Str) :
    matchedInvariant password (sevenZipCheckPassword w FilePath filePath password) := by
  unfold sevenZipCheckPassword
  split_ifs
  · exact matchedInvariant_false _ _ _
  · split
    · split
      · exact matchedInvariant_false _ _ _
      · exact matchedInvariant_empty _
      · exact sevenZipWithPassword_invariant _ _ _
    · exact sevenZipWithPassword_invariant _ _ _

theorem checkRar4Password_invariant (w : World) (filePath password : Str) :
    matchedInvariant password (checkRar4Password w filePath password) := by
  unfold checkRar4Password
  split
  · split_ifs <;> exact matchedInvariant_false _ _ _
  · split
    · exact matchedInvariant_candidate _
    · exact matchedInvariant_false _ _ _
    · split
      · exact matchedInvariant_false _ _ _
      · exact matchedInvariant_candidate _

theorem rar5WithPassword_invariant (w : World) (filePath password : Str) :
    matchedInvariant password (rar5WithPassword w filePath password) := by
  unfold rar5WithPassword
  split
  · split_ifs <;> exact matchedInvariant_false _ _ _
  · split
    · exact matchedInvariant_candidate _
    · split_ifs <;> exact matchedInvariant_false _ _ _
    · split_ifs
      · split
        · exact matchedInvariant_false _ _ _
        · exact matchedInvariant_candidate _
      · exact matchedInvariant_candidate _

theorem rarCheckPassword_invariant (w : World) (FilePath filePath password : Str) :
    matchedInvariant password (rarCheckPassword w FilePath filePath password) := by
  unfold rarCheckPassword
  simp only
  split
  · exact matchedInvariant_false _ _ _
  · split_ifs
    · exact checkRar4Password_invariant _ _ _
    · split
      · split
        · exact matchedInvariant_empty _
        · exact matchedInvariant_empty _
        · exact rar5WithPassword_invariant _ _ _
      · exact rar5WithPassword_invariant _ _ _

/-- C19: for each of the three strategies, and for `checkRar4Password`, in every
world and for every `filePath` argument and candidate password: when
`CheckPassword` returns matched = true, the error is nil and the password
returned is empty or is the candidate; and when the error is not nil,
matched is false. -/
theorem CheckPassword_matched_invariant (w : World) (c : Checker) (filePath password : Str) :
    ((c.CheckPassword w filePath password).1 = true →
        (c.CheckPassword w filePath password).2.2 = none ∧
          ((c.CheckPassword w filePath password).2.1 = [] ∨
            (c.CheckPassword w filePath password).2.1 = password)) ∧
      ((c.CheckPassword w filePath password).2.2 ≠ none →
        (c.CheckPassword w filePath password).1 = false) ∧
      matchedInvariant password (checkRar4Password w filePath password) := by
  have h : matchedInvariant password (c.CheckPassword w filePath password) := by
    cases c with
    | zipChecker FilePath => exact zipCheckPassword_invariant w FilePath filePath password
    | rarChecker FilePath => exact rarCheckPassword_invariant w FilePath filePath password
    | sevenZipChecker FilePath =>
      exact sevenZipCheckPassword_invariant w FilePath filePath password
  exact ⟨h.1, h.2, checkRar4Password_invariant w filePath password⟩

/-- Instances of C19: a match on `e.zip` comes with a nil error and the
candidate, and the error on `bad.zip` comes with matched = false. -/
theorem CheckPassword_matched_invariant_witness :
    ((Checker.zipChecker "e.zip".toList).CheckPassword encryptedZipWorld "e.zip".toList
        "666".toList).2.2 = none ∧
      ((Checker.zipChecker "bad.zip".toList).CheckPassword notZipWorld "bad.zip".toList
        "666".toList).1 = false :=
  ⟨((CheckPassword_matched_invariant encryptedZipWorld (Checker.zipChecker "e.zip".toList)
      "e.zip".toList "666".toList).1 (by decide)).1,
   (CheckPassword_matched_invariant notZipWorld (Checker.zipChecker "bad.zip".toList)
      "bad.zip".toList "666".toList).2.1 (by decide)⟩

/-! ## findFirstVolume applied twice -/

theorem matchRNN_not_digit (s : Str) (c : Char) (hc : c.isDigit = false) :
    matchRNN (s ++ [c]) = false := by
  unfold matchRNN
  split
  · rename_i d2 d1 rest hr
    simp at hr
    obtain ⟨rfl, -⟩ := hr
    simp [hc]
  · rfl

theorem matchPartRar_not_r (s : Str) (c : Char) (hc : c ≠ 'r') :
    matchPartRar (s ++ [c]) = false := by
  unfold matchPartRar
  split
  · rename_i rest hr
    simp at hr
    exact absurd hr.1 hc
  · rfl

theorem matchZNN_three_digits (s : Str) (a b c : Char) (ha : a.isDigit = true) :
    matchZNN (s ++ [a, b, c]) = false := by
  unfold matchZNN
  split
  · rename_i d2 d1 rest hr
    simp at hr
    obtain ⟨-, -, rfl, -⟩ := hr
    simp at ha
  · rfl

theorem matchRNN_three_digits (s : Str) (a b c : Char) (ha : a.isDigit = true) :
    matchRNN (s ++ [a, b, c]) = false := by
  unfold matchRNN
  split
  · rename_i d2 d1 rest hr
    simp at hr
    obtain ⟨-, -, rfl, -⟩ := hr
    simp at ha
  · rfl

theorem match7zVolume_zip (s : Str) (a b c : Char) :
    match7zVolume (s ++ ['.', 'z', 'i', 'p', '.', a, b, c]) = false := by
  simp [match7zVolume]

theorem splitHead_initial (s sep : Str) : splitHead s sep <+: s := by
  induction s with
  | nil => exact List.prefix_refl _
  | cons c t ih =>
    unfold splitHead
    split_ifs
    · exact List.nil_prefix
    · exact (List.prefix_cons_inj c).2 ih

/-- The part before the first occurrence of a separator holds no occurrence. -/
theorem Contains_splitHead (s sep : Str) (hsep : sep ≠ []) :
    Contains (splitHead s sep) sep = false := by
  have hnil : Contains [] sep = false := by
    cases sep with
    | nil => exact absurd rfl hsep
    | cons a l => rfl
  induction s with
  | nil => exact hnil
  | cons c t ih =>
    unfold splitHead
    by_cases h : sep.isPrefixOf (c :: t) = true
    · rw [if_pos h]
      exact hnil
    · rw [if_neg h]
      unfold Contains
      rw [ih, Bool.or_false]
      cases h2 : sep.isPrefixOf (c :: splitHead t sep) with
      | false => rfl
      | true =>
        exfalso
        apply h
        rw [ List.isPrefixOf_iff_prefix] at h2 ⊢
        exact h2.trans ((List.prefix_cons_inj c).2 (splitHead_initial t sep))

theorem sepFree_of_initial (a b : Str) (h : a <+: b) (hb : SepFree b) : SepFree a :=
  fun c hc => hb c (h.subset hc)

/-- What `findFirstVolume` does when no pattern is matched. -/
theorem findFirstVolume_no_match (w : World) (path : Str)
    (h7z : match7zVolume (Base path) = false)
    (hzip : matchZipVolume (Base path) = false)
    (hz : matchZNN (Base path) = false)
    (hpart : matchPartRar (Base path) = false)
    (hr : matchRNN (Base path) = false) :
    findFirstVolume w path = (path, none) := by
  simp [findFirstVolume, h7z, hzip, hz, hpart, hr]

/-- A path that `findFirstVolume` returns as it is, is returned as it is again. -/
theorem findFirstVolume_twice_of_fixed (w : World) (path : Str)
    (h : findFirstVolume w path = (path, none)) :
    findFirstVolume w (findFirstVolume w path).1 = findFirstVolume w path := by
  rw [h]
  exact h

/-- A path joined of the directory of `path` and a name that ends in a
character that is neither a digit nor `r` is returned as it is. -/
theorem findFirstVolume_Join_plain (w : World) (path name : Str) (c : Char)
    (hname : IsName (name ++ [c])) (hd : c.isDigit = false) (hc : c ≠ 'r') :
    findFirstVolume w (Join [Dir path, name ++ [c]]) = (Join [Dir path, name ++ [c]], none) := by
  have hb := Base_Join_Dir path _ hname
  apply findFirstVolume_no_match <;> rw [hb]
  · exact match7zVolume_not_digit _ _ hd
  · exact matchZipVolume_not_digit _ _ hd
  · exact matchZNN_not_digit _ _ hd
  · exact matchPartRar_not_r _ _ hc
  · exact matchRNN_not_digit _ _ hd

theorem Base_ne_root_of_len (path : Str) (h : 2 ≤ (Base path).length) : SepFree (Base path) := by
  rcases Base_sepFree path with hb | hb
  · rw [hb] at h
    simp at h
  · exact hb

theorem findFirstVolume_twice_of_step (w : World) (path r : Str)
    (h1 : findFirstVolume w path = (r, none)) (h2 : findFirstVolume w r = (r, none)) :
    findFirstVolume w (findFirstVolume w path).1 = findFirstVolume w path := by
  rw [h1]
  exact h2

theorem findFirstVolume_twice_7z (w : World) (path : Str)
    (h : match7zVolume (Base path) = true) :
    findFirstVolume w (findFirstVolume w path).1 = findFirstVolume w path := by
  obtain ⟨stem, d1, d2, d3, hb, -, -, -⟩ := (match7zVolume_iff _).1 h
  have hname : IsName (stem ++ ".7z.001".toList) :=
    isName_append stem _ (sepFree_stem_of_Base path stem _ hb (by simp))
      (by unfold SepFree; decide) (by decide)
  have ht : (Base path).take ((Base path).length - 7) = stem := by
    rw [hb]; exact take_length_sub_append stem _ 7 rfl
  have hfp : findFirstVolume w path = (Join [Dir path, stem ++ ".7z.001".toList], none) := by
    simp only [findFirstVolume, h, ht, if_true]
  have hbr : Base (Join [Dir path, stem ++ ".7z.001".toList]) =
      stem ++ ['.', '7', 'z', '.', '0', '0', '1'] := by
    simpa using Base_Join_Dir path _ hname
  have hm : match7zVolume (Base (Join [Dir path, stem ++ ".7z.001".toList])) = true := by
    rw [hbr, match7zVolume_append]; rfl
  have htr : (Base (Join [Dir path, stem ++ ".7z.001".toList])).take
      ((Base (Join [Dir path, stem ++ ".7z.001".toList])).length - 7) = stem := by
    rw [hbr]; exact take_length_sub_append stem _ 7 rfl
  have hfr : findFirstVolume w (Join [Dir path, stem ++ ".7z.001".toList]) =
      (Join [Dir path, stem ++ ".7z.001".toList], none) := by
    simp only [findFirstVolume, hm, htr, if_true, Dir_Join_Dir path _ hname]
  exact findFirstVolume_twice_of_step w path _ hfp hfr

theorem findFirstVolume_twice_zip (w : World) (path : Str)
    (h7 : match7zVolume (Base path) = false) (h : matchZipVolume (Base path) = true) :
    findFirstVolume w (findFirstVolume w path).1 = findFirstVolume w path := by
  obtain ⟨stem, d1, d2, d3, hb, hd1, -, hd3⟩ := (matchZipVolume_iff _).1 h
  have hname : IsName (stem ++ ".zip.001".toList) :=
    isName_append stem _ (sepFree_stem_of_Base path stem _ hb (by simp))
      (by unfold SepFree; decide) (by decide)
  have ht : (Base path).take ((Base path).length - 8) = stem := by
    rw [hb]; exact take_length_sub_append stem _ 8 rfl
  by_cases hs : w.Stat (Join [Dir path, stem ++ ".zip.001".toList]) = true
  · have hfp : findFirstVolume w path = (Join [Dir path, stem ++ ".zip.001".toList], none) := by
      simp only [findFirstVolume, h7, h, ht, hs, if_true]
      simp
    have hbr : Base (Join [Dir path, stem ++ ".zip.001".toList]) =
        stem ++ ['.', 'z', 'i', 'p', '.', '0', '0', '1'] := by
      simpa using Base_Join_Dir path _ hname
    have hm7 : match7zVolume (Base (Join [Dir path, stem ++ ".zip.001".toList])) = false := by
      rw [hbr]; exact match7zVolume_zip _ _ _ _
    have hm : matchZipVolume (Base (Join [Dir path, stem ++ ".zip.001".toList])) = true := by
      rw [hbr]; simp [matchZipVolume]
    have htr : (Base (Join [Dir path, stem ++ ".zip.001".toList])).take
        ((Base (Join [Dir path, stem ++ ".zip.001".toList])).length - 8) = stem := by
      rw [hbr]; exact take_length_sub_append stem _ 8 rfl
    have hfr : findFirstVolume w (Join [Dir path, stem ++ ".zip.001".toList]) =
        (Join [Dir path, stem ++ ".zip.001".toList], none) := by
      simp only [findFirstVolume, hm7, hm, htr, if_true, Dir_Join_Dir path _ hname, hs]
      simp
    exact findFirstVolume_twice_of_step w path _ hfp hfr
  · have hlast : Base path = (stem ++ ['.', 'z', 'i', 'p', '.', d1, d2]) ++ [d3] := by
      rw [hb]; simp
    have h3 : Base path = (stem ++ ['.', 'z', 'i', 'p', '.']) ++ [d1, d2, d3] := by
      rw [hb]; simp
    have hn : matchZNN (Base path) = false := by
      rw [h3]; exact matchZNN_three_digits _ _ _ _ hd1
    have hp : matchPartRar (Base path) = false := by
      rw [hlast]; exact matchPartRar_digit _ _ hd3
    have hr : matchRNN (Base path) = false := by
      rw [h3]; exact matchRNN_three_digits _ _ _ _ hd1
    apply findFirstVolume_twice_of_fixed
    simp only [findFirstVolume, h7, h, ht, hs, hn, hp, hr]
    simp

theorem findFirstVolume_twice_zNN (w : World) (path : Str)
    (h7 : match7zVolume (Base path) = false) (hz : matchZipVolume (Base path) = false)
    (h : matchZNN (Base path) = true) :
    findFirstVolume w (findFirstVolume w path).1 = findFirstVolume w path := by
  obtain ⟨stem, d1, d2, hb, -, hd2⟩ := (matchZNN_iff _).1 h
  have hname : IsName ((stem ++ ".zi".toList) ++ ['p']) := by
    have := isName_append stem ".zip".toList (sepFree_stem_of_Base path stem _ hb (by simp))
      (by unfold SepFree; decide) (by decide)
    simpa using this
  have heq : stem ++ ".zip".toList = (stem ++ ".zi".toList) ++ ['p'] := by simp
  have ht : (Base path).take ((Base path).length - 4) = stem := by
    rw [hb]; exact take_length_sub_append stem _ 4 rfl
  by_cases hs : w.Stat (Join [Dir path, stem ++ ".zip".toList]) = true
  · have hfp : findFirstVolume w path = (Join [Dir path, stem ++ ".zip".toList], none) := by
      simp only [findFirstVolume, h7, hz, h, ht, hs, if_true]
      simp
    have hfr : findFirstVolume w (Join [Dir path, stem ++ ".zip".toList]) =
        (Join [Dir path, stem ++ ".zip".toList], none) := by
      rw [heq]
      exact findFirstVolume_Join_plain w path _ 'p' hname (by decide) (by decide)
    exact findFirstVolume_twice_of_step w path _ hfp hfr
  · have hp : matchPartRar (Base path) = false := by
      have : Base path = (stem ++ ['.', 'z', d1]) ++ [d2] := by rw [hb]; simp
      rw [this]; exact matchPartRar_digit _ _ hd2
    have hr : matchRNN (Base path) = false := by rw [hb]; exact matchRNN_zNN _ _ _
    apply findFirstVolume_twice_of_fixed
    simp only [findFirstVolume, h7, hz, h, ht, hs, hp, hr]
    simp

theorem findFirstVolume_twice_part (w : World) (path : Str)
    (h7 : match7zVolume (Base path) = false) (hz : matchZipVolume (Base path) = false)
    (hn : matchZNN (Base path) = false) (h : matchPartRar (Base path) = true) :
    findFirstVolume w (findFirstVolume w path).1 = findFirstVolume w path := by
  have hlen : 2 ≤ (Base path).length := by
    rcases hbp : Base path with _ | ⟨a, _ | ⟨b, t⟩⟩
    · rw [hbp] at h; simp [matchPartRar] at h
    · rw [hbp] at h; simp [matchPartRar] at h
    · simp
  have hsf : SepFree (splitHead (Base path) ".part".toList) :=
    sepFree_of_initial _ _ (splitHead_initial _ _) (Base_ne_root_of_len path hlen)
  have hname : IsName (splitHead (Base path) ".part".toList ++ ".part1.rar".toList) :=
    isName_append _ _ hsf (by unfold SepFree; decide) (by decide)
  have hfp : findFirstVolume w path =
      (Join [Dir path, splitHead (Base path) ".part".toList ++ ".part1.rar".toList], none) := by
    simp [findFirstVolume, h7, hz, hn, h]
  have hbr : Base (Join [Dir path,
      splitHead (Base path) ".part".toList ++ ".part1.rar".toList]) =
      splitHead (Base path) ".part".toList ++ ".part".toList ++ ['1'] ++ ".rar".toList := by
    rw [Base_Join_Dir path _ hname]; simp
  have hfr := (findFirstVolume_part_rar w _ (splitHead (Base path) ".part".toList) ['1'] hbr
    (by simp) (by decide)).2 (Contains_splitHead _ _ (by decide))
  rw [Dir_Join_Dir path _ hname] at hfr
  exact findFirstVolume_twice_of_step w path _ hfp hfr

theorem findFirstVolume_twice_rNN (w : World) (path : Str)
    (h7 : match7zVolume (Base path) = false) (hz : matchZipVolume (Base path) = false)
    (hn : matchZNN (Base path) = false) (hp : matchPartRar (Base path) = false)
    (h : matchRNN (Base path) = true) (hform : isPartRNN path = false) :
    findFirstVolume w (findFirstVolume w path).1 = findFirstVolume w path := by
  obtain ⟨stem, d1, d2, hb, -, -⟩ := (matchRNN_iff _).1 h
  have hname : IsName (stem ++ ".rar".toList) :=
    isName_append stem _ (sepFree_stem_of_Base path stem _ hb (by simp))
      (by unfold SepFree; decide) (by decide)
  have ht : (Base path).take ((Base path).length - 4) = stem := by
    rw [hb]; exact take_length_sub_append stem _ 4 rfl
  have hpr : matchPartRar (stem ++ ".rar".toList) = false := by
    unfold isPartRNN at hform
    rw [h, ht, Bool.true_and] at hform
    exact hform
  have hfp : findFirstVolume w path = (Join [Dir path, stem ++ ".rar".toList], none) := by
    simp only [findFirstVolume, h7, hz, hn, hp, h, ht]
    simp
  have hlast : stem ++ ".rar".toList = (stem ++ ".ra".toList) ++ ['r'] := by simp
  have hfr : findFirstVolume w (Join [Dir path, stem ++ ".rar".toList]) =
      (Join [Dir path, stem ++ ".rar".toList], none) := by
    have hb2 := Base_Join_Dir path _ hname
    apply findFirstVolume_no_match <;> rw [hb2]
    · rw [hlast]; exact match7zVolume_not_digit _ _ (by decide)
    · rw [hlast]; exact matchZipVolume_not_digit _ _ (by decide)
    · rw [hlast]; exact matchZNN_not_digit _ _ (by decide)
    · exact hpr
    · rw [hlast]; exact matchRNN_not_digit _ _ (by decide)
  exact findFirstVolume_twice_of_step w path _ hfp hfr

/-- C17, as the claim states it, fails: `x.part2.r01` gives `x.part2.rar`, and
`x.part2.rar` gives `x.part1.rar`, whether or not files exist. -/
theorem findFirstVolume_twice_part_rNN :
    findFirstVolume emptyWorld "x.part2.r01".toList = ("x.part2.rar".toList, none) ∧
      findFirstVolume emptyWorld "x.part2.rar".toList = ("x.part1.rar".toList, none) ∧
      findFirstVolume emptyWorld (findFirstVolume emptyWorld "x.part2.r01".toList).1 ≠
        findFirstVolume emptyWorld "x.part2.r01".toList ∧
      findFirstVolume statWorld (findFirstVolume statWorld "x.part2.r01".toList).1 ≠
        findFirstVolume statWorld "x.part2.r01".toList := by
  decide

/-- C17, amended: in every world, for every path whose base name is not of the
form `X.partN.rNN`, applying `findFirstVolume` to its own result returns that
result unchanged. -/
theorem findFirstVolume_twice (w : World) (path : Str) (hform : isPartRNN path = false) :
    findFirstVolume w (findFirstVolume w path).1 = findFirstVolume w path := by
  by_cases h7 : match7zVolume (Base path) = true
  · exact findFirstVolume_twice_7z w path h7
  have h7f : match7zVolume (Base path) = false := by simpa using h7
  by_cases hz : matchZipVolume (Base path) = true
  · exact findFirstVolume_twice_zip w path h7f hz
  have hzf : matchZipVolume (Base path) = false := by simpa using hz
  by_cases hn : matchZNN (Base path) = true
  · exact findFirstVolume_twice_zNN w path h7f hzf hn
  have hnf : matchZNN (Base path) = false := by simpa using hn
  by_cases hp : matchPartRar (Base path) = true
  · exact findFirstVolume_twice_part w path h7f hzf hnf hp
  have hpf : matchPartRar (Base path) = false := by simpa using hp
  by_cases hr : matchRNN (Base path) = true
  · exact findFirstVolume_twice_rNN w path h7f hzf hnf hpf hr hform
  have hrf : matchRNN (Base path) = false := by simpa using hr
  exact findFirstVolume_twice_of_fixed w path (findFirstVolume_no_match w path h7f hzf hnf hpf hrf)

/-- Instances of C17 as amended: an old RAR volume, a 7-Zip volume in a
directory, and a ZIP volume whose first volume exists. -/
theorem findFirstVolume_twice_witness :
    findFirstVolume emptyWorld (findFirstVolume emptyWorld "x.r07".toList).1 =
        findFirstVolume emptyWorld "x.r07".toList ∧
      findFirstVolume emptyWorld (findFirstVolume emptyWorld "a/b/x.7z.005".toList).1 =
        findFirstVolume emptyWorld "a/b/x.7z.005".toList ∧
      findFirstVolume statWorld (findFirstVolume statWorld "x.zip.003".toList).1 =
        findFirstVolume statWorld "x.zip.003".toList :=
  ⟨findFirstVolume_twice emptyWorld "x.r07".toList (by decide),
   findFirstVolume_twice emptyWorld "a/b/x.7z.005".toList (by decide),
   findFirstVolume_twice statWorld "x.zip.003".toList (by decide)⟩

end Archpasswd
